import Mathlib

/-!
Verification of the Agentability evaluator core, a Lean model of:

* the safety-constrained fetch primitive (the ssrf module: assertPublicHost,
  readBodyWithLimit, safeFetch),
* the public evaluator (evaluatePublic.ts: fetchRepeated, discover, the check
  engine and aggregateScores),
* the diff engine (packages/shared/src/diff.ts: computeDiff).

Modelling conventions, used throughout:

* JavaScript numbers are modelled as exact rationals, JS string values as Lean
  strings (with List Char where character-level scanning is needed).
* Thrown exceptions are modelled as Except values carrying the thrown message.
* External library calls whose semantics live outside this repository (WHATWG
  URL parsing and resolution, DNS lookup, the transport fetch, ipaddr.js range
  classification, JSON.parse, sha256 digests, UTF-8 decoding) are explicit
  environment parameters; everything written in the repository itself is
  translated concretely.
* Wall-clock timestamps (fetchedAt, createdAt, completedAt) and timers carry no
  logic in the evaluator and are not modelled.
-/

namespace Agentability

/-- Check status, from CheckStatusSchema in packages/shared/src/index.ts:
pass, warn or fail. -/
inductive CheckStatus
  | pass
  | warn
  | fail
deriving DecidableEq, Repr, Fintype

/-- Check severity, from CheckSeveritySchema: high, medium or low. -/
inductive Severity
  | high
  | medium
  | low
deriving DecidableEq, Repr

/-- CheckResult, from CheckResultSchema in packages/shared/src/index.ts. -/
structure CheckResult where
  id : String
  status : CheckStatus
  severity : Severity
  summary : String
  evidence : List String
  recommendationId : Option String := none
deriving DecidableEq, Repr

/-- PillarScores, from PillarScoresSchema: five numeric fields. -/
structure PillarScores where
  discovery : ℚ
  callableSurface : ℚ
  llmIngestion : ℚ
  trust : ℚ
  reliability : ℚ
deriving DecidableEq, Repr

/-- DiffInput, from packages/shared/src/diff.ts. -/
structure DiffInput where
  score : ℚ
  grade : String
  pillarScores : PillarScores
  checks : List CheckResult
deriving DecidableEq, Repr

/-- DiffIssue, from DiffIssueSchema.  The field holding the previous status is
called fromS because `from` is reserved in Lean; it is `null` (none) when the
check was absent from the previous run. -/
structure DiffIssue where
  checkId : String
  fromS : Option CheckStatus
  toS : CheckStatus
  severity : Severity
deriving DecidableEq, Repr

/-- DiffChange, from DiffChangeSchema: a transition recorded without a
severity classification. -/
structure DiffChange where
  checkId : String
  fromS : Option CheckStatus
  toS : CheckStatus
deriving DecidableEq, Repr

/-- The per-status counters of DiffSummary.counts. -/
structure StatusCounts where
  pass : ℕ
  warn : ℕ
  fail : ℕ
deriving DecidableEq, Repr

/-- DiffSummary, from DiffSummarySchema. -/
structure DiffSummary where
  scoreDelta : ℚ
  gradeFrom : String
  gradeTo : String
  pillarDelta : PillarScores
  newIssues : List DiffIssue
  fixedIssues : List DiffIssue
  changed : List DiffChange
  counts : StatusCounts
deriving DecidableEq, Repr

/-- countStatuses from diff.ts: a reduce over the checks incrementing the
counter of each status. -/
def countStatuses (checks : List CheckResult) : StatusCounts :=
  checks.foldl
    (fun acc check =>
      match check.status with
      | .pass => { acc with pass := acc.pass + 1 }
      | .warn => { acc with warn := acc.warn + 1 }
      | .fail => { acc with fail := acc.fail + 1 })
    { pass := 0, warn := 0, fail := 0 }

/-- The lookup of `new Map(previous.checks.map((check) => [check.id, check]))`:
when two checks share an id the later Map entry overwrites the earlier one, so
the lookup returns the last check with the given id. -/
def previousById (checks : List CheckResult) (id : String) : Option CheckResult :=
  checks.foldl (fun acc check => if check.id = id then some check else acc) none

/-- The body of computeDiff's `for (const check of current.checks)` loop,
from diff.ts lines 41-75, translated branch for branch; returns the
(newIssues, fixedIssues, changed) triple in iteration order. -/
def diffLoop (prev : List CheckResult) : List CheckResult →
    List DiffIssue × List DiffIssue × List DiffChange
  | [] => ([], [], [])
  | check :: rest =>
    let (ns, fs, cs) := diffLoop prev rest
    let before := previousById prev check.id
    let fromS : Option CheckStatus := before.map (fun b => b.status)
    let toS := check.status
    if fromS = some toS then (ns, fs, cs)
    else
      let regression : Bool :=
        decide ((fromS = none ∨ fromS = some .pass) ∧ (toS = .warn ∨ toS = .fail))
      let escalated : Bool := decide (fromS = some .warn ∧ toS = .fail)
      let improved : Bool :=
        decide ((fromS = some .warn ∨ fromS = some .fail) ∧ toS = .pass)
      let softened : Bool := decide (fromS = some .fail ∧ toS = .warn)
      if regression || escalated then
        ({ checkId := check.id, fromS := fromS, toS := toS,
           severity := check.severity } :: ns, fs, cs)
      else if improved || softened then
        (ns, { checkId := check.id, fromS := fromS, toS := toS,
               severity := (before.map (fun b => b.severity)).getD check.severity } :: fs, cs)
      else
        (ns, fs, { checkId := check.id, fromS := fromS, toS := toS } :: cs)

/-- computeDiff from packages/shared/src/diff.ts. -/
def computeDiff (previous : Option DiffInput) (current : DiffInput) : Option DiffSummary :=
  match previous with
  | none => none
  | some prev =>
    let (newIssues, fixedIssues, changed) := diffLoop prev.checks current.checks
    some
      { scoreDelta := current.score - prev.score
        gradeFrom := prev.grade
        gradeTo := current.grade
        pillarDelta :=
          { discovery := current.pillarScores.discovery - prev.pillarScores.discovery
            callableSurface :=
              current.pillarScores.callableSurface - prev.pillarScores.callableSurface
            llmIngestion := current.pillarScores.llmIngestion - prev.pillarScores.llmIngestion
            trust := current.pillarScores.trust - prev.pillarScores.trust
            reliability := current.pillarScores.reliability - prev.pillarScores.reliability }
        newIssues := newIssues
        fixedIssues := fixedIssues
        changed := changed
        counts := countStatuses current.checks }

/-- Rule of spec section 4.5 for a new issue, written from the claim's words:
pass-or-null to warn or fail, and warn to fail. -/
def ruleNewIssue (fromS : Option CheckStatus) (toS : CheckStatus) : Prop :=
  ((fromS = none ∨ fromS = some .pass) ∧ (toS = .warn ∨ toS = .fail)) ∨
    (fromS = some .warn ∧ toS = .fail)

/-- Rule of spec section 4.5 for a fixed issue, written from the claim's
words: warn or fail to pass, and fail to warn. -/
def ruleFixedIssue (fromS : Option CheckStatus) (toS : CheckStatus) : Prop :=
  ((fromS = some .warn ∨ fromS = some .fail) ∧ toS = .pass) ∨
    (fromS = some .fail ∧ toS = .warn)

/-- Rule of spec section 4.5 for an ignored (unchanged) transition: equal
statuses. -/
def ruleUnchanged (fromS : Option CheckStatus) (toS : CheckStatus) : Prop :=
  fromS = some toS

instance (fromS : Option CheckStatus) (toS : CheckStatus) :
    Decidable (ruleNewIssue fromS toS) := by
  unfold ruleNewIssue; infer_instance

instance (fromS : Option CheckStatus) (toS : CheckStatus) :
    Decidable (ruleFixedIssue fromS toS) := by
  unfold ruleFixedIssue; infer_instance

instance (fromS : Option CheckStatus) (toS : CheckStatus) :
    Decidable (ruleUnchanged fromS toS) := by
  unfold ruleUnchanged; infer_instance

/-- The loop of computeDiff lands every current check in the list that the
section 4.5 rules prescribe for its (previous status, current status) pair:
the three output lists are filterMaps of the classification rules over the
current checks. -/
theorem diffLoop_filterMap (prev : List CheckResult) (checks : List CheckResult) :
    diffLoop prev checks =
      (checks.filterMap (fun c =>
          let fromS := (previousById prev c.id).map (fun b => b.status)
          if ruleNewIssue fromS c.status then
            some { checkId := c.id, fromS := fromS, toS := c.status, severity := c.severity }
          else none),
        checks.filterMap (fun c =>
          let before := previousById prev c.id
          let fromS := before.map (fun b => b.status)
          if ruleFixedIssue fromS c.status then
            some { checkId := c.id, fromS := fromS, toS := c.status,
                   severity := (before.map (fun b => b.severity)).getD c.severity }
          else none),
        checks.filterMap (fun c =>
          let fromS := (previousById prev c.id).map (fun b => b.status)
          if ¬ ruleUnchanged fromS c.status ∧ ¬ ruleNewIssue fromS c.status ∧
              ¬ ruleFixedIssue fromS c.status then
            some { checkId := c.id, fromS := fromS, toS := c.status }
          else none)) := by
  induction checks with
  | nil => rfl
  | cons c rest ih =>
    simp only [diffLoop, ih, List.filterMap_cons]
    rcases hb : previousById prev c.id with _ | bc
    · rcases hcs : c.status <;>
        simp [ruleNewIssue, ruleFixedIssue, ruleUnchanged, hb, hcs]
    · rcases hcs : c.status <;> rcases hbs : bc.status <;>
        simp [ruleNewIssue, ruleFixedIssue, ruleUnchanged, hb, hcs, hbs]

/-- C3: computeDiff's per-check classification is total and mutually
exclusive: for every previous status in pass/warn/fail/null and current
status in pass/warn/fail, the check lands in exactly one of new-issue,
fixed-issue, changed or unchanged, following the section 4.5 rules —
pass-or-null to warn/fail and warn to fail are new issues with the current
check's severity; warn/fail to pass and fail to warn are fixed issues with
the previous check's severity when known, else the current one; equal
statuses are ignored; every remaining transition goes to the generic changed
list without a severity.  The three output lists are exactly the filterMaps
of those rules over the current checks (so each check occurrence lands in at
most one list, and in none exactly when its transition is unchanged), and the
three rules plus unchanged are pairwise disjoint and total over all sixteen
(previous, current) pairs. -/
theorem C3_computeDiff_classification (prev cur : DiffInput) :
    ∃ d, computeDiff (some prev) cur = some d ∧
      d.newIssues = cur.checks.filterMap (fun c =>
        let fromS := (previousById prev.checks c.id).map (fun b => b.status)
        if ruleNewIssue fromS c.status then
          some { checkId := c.id, fromS := fromS, toS := c.status, severity := c.severity }
        else none) ∧
      d.fixedIssues = cur.checks.filterMap (fun c =>
        let before := previousById prev.checks c.id
        let fromS := before.map (fun b => b.status)
        if ruleFixedIssue fromS c.status then
          some { checkId := c.id, fromS := fromS, toS := c.status,
                 severity := (before.map (fun b => b.severity)).getD c.severity }
        else none) ∧
      d.changed = cur.checks.filterMap (fun c =>
        let fromS := (previousById prev.checks c.id).map (fun b => b.status)
        if ¬ ruleUnchanged fromS c.status ∧ ¬ ruleNewIssue fromS c.status ∧
            ¬ ruleFixedIssue fromS c.status then
          some { checkId := c.id, fromS := fromS, toS := c.status }
        else none) ∧
      (∀ (fromS : Option CheckStatus) (toS : CheckStatus),
        ¬ (ruleUnchanged fromS toS ∧ ruleNewIssue fromS toS) ∧
        ¬ (ruleUnchanged fromS toS ∧ ruleFixedIssue fromS toS) ∧
        ¬ (ruleNewIssue fromS toS ∧ ruleFixedIssue fromS toS)) := by
  refine ⟨_, rfl, ?_, ?_, ?_, ?_⟩
  · simp only [computeDiff, diffLoop_filterMap]
  · simp only [computeDiff, diffLoop_filterMap]
  · simp only [computeDiff, diffLoop_filterMap]
  · decide

/-- The five scored pillars, from the Pillar type of evaluatePublic.ts. -/
inductive Pillar
  | discovery
  | callableSurface
  | llmIngestion
  | trust
  | reliability
deriving DecidableEq, Repr, Fintype

/-- CheckDefinition, from evaluatePublic.ts. -/
structure CheckDefinition where
  id : String
  pillar : Pillar
  severity : Severity
  summary : String
deriving DecidableEq, Repr

/-- The fixed check catalog CHECKS of evaluatePublic.ts (the full engine:
D1, D2, C2, C3, L1, T1, T2, R3). -/
def CHECKS : List CheckDefinition :=
  [ { id := "D1", pillar := .discovery, severity := .high,
      summary := "Machine-readable entrypoints exist" },
    { id := "D2", pillar := .discovery, severity := .high,
      summary := "Entrypoints are reachable, correct, and stable" },
    { id := "C2", pillar := .callableSurface, severity := .high,
      summary := "Public OpenAPI surface is valid and example-rich" },
    { id := "C3", pillar := .callableSurface, severity := .high,
      summary := "MCP endpoint responds to discovery and initialize" },
    { id := "L1", pillar := .llmIngestion, severity := .high,
      summary := "Canonical docs entrypoint exists with meaningful text" },
    { id := "T1", pillar := .trust, severity := .high,
      summary := "air.json is complete and well-formed" },
    { id := "T2", pillar := .trust, severity := .high,
      summary := "AI plugin metadata includes legal and contact fields" },
    { id := "R3", pillar := .reliability, severity := .high,
      summary := "Repeat-request consistency for critical surfaces" } ]

/-- The five evaluation profiles, from EvaluationProfileSchema. -/
inductive EvaluationProfile
  | auto
  | api_product
  | docs_platform
  | content
  | hybrid
deriving DecidableEq, Repr, Fintype

/-- PROFILE_WEIGHTS from evaluatePublic.ts, with the JS number literals read
as exact rationals. -/
def PROFILE_WEIGHTS : EvaluationProfile → Pillar → ℚ
  | .auto, .discovery => 3/10
  | .auto, .callableSurface => 2/10
  | .auto, .llmIngestion => 2/10
  | .auto, .trust => 1/10
  | .auto, .reliability => 2/10
  | .api_product, .discovery => 35/100
  | .api_product, .callableSurface => 3/10
  | .api_product, .llmIngestion => 15/100
  | .api_product, .trust => 1/10
  | .api_product, .reliability => 1/10
  | .docs_platform, .discovery => 25/100
  | .docs_platform, .callableSurface => 15/100
  | .docs_platform, .llmIngestion => 35/100
  | .docs_platform, .trust => 1/10
  | .docs_platform, .reliability => 15/100
  | .content, .discovery => 3/10
  | .content, .callableSurface => 5/100
  | .content, .llmIngestion => 35/100
  | .content, .trust => 1/10
  | .content, .reliability => 2/10
  | .hybrid, .discovery => 3/10
  | .hybrid, .callableSurface => 2/10
  | .hybrid, .llmIngestion => 25/100
  | .hybrid, .trust => 1/10
  | .hybrid, .reliability => 15/100

/-- The iteration order of the five pillar keys, matching the object key
order of the weight tables and of pillarTotals. -/
def PILLAR_KEYS : List Pillar :=
  [.discovery, .callableSurface, .llmIngestion, .trust, .reliability]

/-- scoreStatus from evaluatePublic.ts: pass 1, warn 0.5, fail 0. -/
def scoreStatus : CheckStatus → ℚ
  | .pass => 1
  | .warn => 1/2
  | .fail => 0

/-- Math.round on an exact rational: the nearest integer, halves rounding
toward positive infinity. -/
def jsRound (x : ℚ) : ℤ := ⌊x + 1/2⌋

/-- gradeFromScore from evaluatePublic.ts. -/
def gradeFromScore (score : ℤ) : String :=
  if score ≥ 90 then "A"
  else if score ≥ 80 then "B"
  else if score ≥ 70 then "C"
  else "Not AI-Native"

/-- The pillarTotals accumulator of aggregateScores: a fold over the CHECKS
catalog that, for each catalog check found in the input list (checks.find
returns the first match), adds its status contribution to the check's pillar
and increments that pillar's count. -/
def pillarTotals (checks : List CheckResult) : Pillar → ℚ × ℕ :=
  CHECKS.foldl
    (fun acc check =>
      match checks.find? (fun item => item.id = check.id) with
      | none => acc
      | some result => fun p =>
          if p = check.pillar then
            ((acc p).1 + scoreStatus result.status, (acc p).2 + 1)
          else acc p)
    (fun _ => (0, 0))

/-- The per-pillar score of aggregateScores:
`max ? Math.round((points / max) * 100) : 0`. -/
def pillarScore (checks : List CheckResult) (p : Pillar) : ℤ :=
  let t := pillarTotals checks p
  if t.2 = 0 then 0 else jsRound ((t.1 / (t.2 : ℚ)) * 100)

/-- The weighted total of aggregateScores, accumulated over the weight-table
keys in object order. -/
def totalScore (checks : List CheckResult) (profile : EvaluationProfile) : ℚ :=
  PILLAR_KEYS.foldl
    (fun acc p => acc + (pillarScore checks p : ℚ) * PROFILE_WEIGHTS profile p) 0

/-- The result record of aggregateScores. -/
structure AggregateResult where
  pillarScores : Pillar → ℤ
  score : ℤ
  grade : String

/-- aggregateScores from evaluatePublic.ts. -/
def aggregateScores (checks : List CheckResult) (profile : EvaluationProfile) :
    AggregateResult :=
  let roundedScore := jsRound (totalScore checks profile)
  { pillarScores := fun p => pillarScore checks p
    score := roundedScore
    grade := gradeFromScore roundedScore }

/-- The contribution table exactly as the claim words it: pass contributes 1,
warn 0.5, fail 0 (stated separately from the source's scoreStatus so the
aggregation can be compared against the claim's formula). -/
def specContribution : CheckStatus → ℚ
  | .pass => 1
  | .warn => 1/2
  | .fail => 0

theorem scoreStatus_eq_specContribution (st : CheckStatus) :
    scoreStatus st = specContribution st := by
  cases st <;> rfl

/-- Closed form of the pillarTotals fold: for each pillar it accumulates the
status contributions of the catalog checks of that pillar found in the input
list, and counts how many such catalog checks are present. -/
theorem pillarTotals_char (checks : List CheckResult) (L : List CheckDefinition)
    (acc : Pillar → ℚ × ℕ) (p : Pillar) :
    (L.foldl
      (fun acc check =>
        match checks.find? (fun item => item.id = check.id) with
        | none => acc
        | some result => fun q =>
            if q = check.pillar then
              ((acc q).1 + scoreStatus result.status, (acc q).2 + 1)
            else acc q)
      acc) p =
    ((acc p).1 + (((L.filter (fun cd => cd.pillar = p)).filterMap
        (fun cd => checks.find? (fun item => item.id = cd.id))).map
          (fun r => scoreStatus r.status)).sum,
     (acc p).2 + (L.filter (fun cd => cd.pillar = p)).countP
        (fun cd => (checks.find? (fun item => item.id = cd.id)).isSome)) := by
  induction L generalizing acc with
  | nil => simp
  | cons d L ih =>
    rw [List.foldl_cons, ih]
    rcases hf : checks.find? (fun item => item.id = d.id) with _ | r
    · by_cases hp : d.pillar = p <;>
        simp [hf, hp, List.filter_cons, List.countP_cons]
    · by_cases hp : p = d.pillar
      · subst hp
        simp [hf, List.filter_cons, List.countP_cons, List.filterMap_cons, add_assoc,
          Nat.add_comm]
      · have hp2 : ¬ d.pillar = p := fun h => hp h.symm
        simp [hf, hp, hp2, List.filter_cons, List.countP_cons]

/-- C4: for every check-result list and every profile, the Scorer computes
each pillar score as round(100 x sum of contributions / number of catalog
checks of that pillar present in the list), with contributions pass=1,
warn=0.5, fail=0 and a pillar with zero present checks scoring 0; the overall
score is the profile-weighted sum of the five pillar scores rounded to an
integer; and each profile's five weights sum to 1.  (JS number arithmetic is
modelled as exact rational arithmetic, with Math.round rounding halves up.) -/
theorem C4_aggregateScores_formula (checks : List CheckResult)
    (profile : EvaluationProfile) :
    (∀ p : Pillar,
      (aggregateScores checks profile).pillarScores p =
        (let present := (CHECKS.filter (fun cd => cd.pillar = p)).filterMap
            (fun cd => checks.find? (fun item => item.id = cd.id))
         let n := (CHECKS.filter (fun cd => cd.pillar = p)).countP
            (fun cd => (checks.find? (fun item => item.id = cd.id)).isSome)
         if n = 0 then 0
         else jsRound (100 * ((present.map (fun r => specContribution r.status)).sum) / (n : ℚ)))) ∧
    (aggregateScores checks profile).score =
      jsRound ((PILLAR_KEYS.map (fun p =>
        PROFILE_WEIGHTS profile p * ((aggregateScores checks profile).pillarScores p : ℚ))).sum) ∧
    (∀ pr : EvaluationProfile, (PILLAR_KEYS.map (PROFILE_WEIGHTS pr)).sum = 1) := by
  refine ⟨?_, ?_, ?_⟩
  · intro p
    show pillarScore checks p = _
    rw [pillarScore, pillarTotals, pillarTotals_char]
    simp only [zero_add]
    have hmap : ∀ l : List CheckResult,
        l.map (fun r => scoreStatus r.status) = l.map (fun r => specContribution r.status) :=
      fun l => List.map_congr_left (fun r _ => scoreStatus_eq_specContribution r.status)
    rw [hmap]
    split
    · rfl
    · rw [div_mul_eq_mul_div, mul_comm]
  · show jsRound (totalScore checks profile) = _
    have : totalScore checks profile =
        (PILLAR_KEYS.map (fun p =>
          PROFILE_WEIGHTS profile p * ((aggregateScores checks profile).pillarScores p : ℚ))).sum := by
      show totalScore checks profile =
        (PILLAR_KEYS.map (fun p =>
          PROFILE_WEIGHTS profile p * ((pillarScore checks p : ℤ) : ℚ))).sum
      simp [totalScore, PILLAR_KEYS]
      ring
    rw [this]
  · intro pr
    cases pr <;> simp [PILLAR_KEYS, PROFILE_WEIGHTS] <;> norm_num

/-- Rank of a status in the order fail < warn < pass. -/
def statusRank : CheckStatus → ℕ
  | .fail => 0
  | .warn => 1
  | .pass => 2

/-- The order fail ≤ warn ≤ pass on check statuses. -/
def statusLe (a b : CheckStatus) : Prop := statusRank a ≤ statusRank b

instance (a b : CheckStatus) : Decidable (statusLe a b) := by
  unfold statusLe; infer_instance

theorem scoreStatus_mono {a b : CheckStatus} (h : statusLe a b) :
    scoreStatus a ≤ scoreStatus b := by
  cases a <;> cases b <;> simp_all [statusLe, statusRank, scoreStatus] <;> norm_num

theorem jsRound_mono {x y : ℚ} (h : x ≤ y) : jsRound x ≤ jsRound y :=
  Int.floor_le_floor (by linarith)

/-- Raising the status of one list element (same id, every other element
unchanged) leaves every first-match lookup either unchanged or moved from the
old element to the raised one. -/
theorem find?_raise (pre post : List CheckResult) (c c2 : CheckResult)
    (hid : c2.id = c.id) (id : String) :
    ((pre ++ c2 :: post).find? (fun item => item.id = id) =
       (pre ++ c :: post).find? (fun item => item.id = id)) ∨
    ((pre ++ c :: post).find? (fun item => item.id = id) = some c ∧
      (pre ++ c2 :: post).find? (fun item => item.id = id) = some c2) := by
  induction pre with
  | nil =>
    simp only [List.nil_append]
    by_cases h : c.id = id
    · right
      exact ⟨List.find?_cons_of_pos _ (by simp [h]),
        List.find?_cons_of_pos _ (by simp [hid, h])⟩
    · left
      rw [List.find?_cons_of_neg _ (by simp [hid, h]),
        List.find?_cons_of_neg _ (by simp [h])]
  | cons a pre ih =>
    simp only [List.cons_append]
    by_cases h : a.id = id
    · left
      rw [List.find?_cons_of_pos _ (by simp [h]), List.find?_cons_of_pos _ (by simp [h])]
    · rw [List.find?_cons_of_neg _ (by simp [h]), List.find?_cons_of_neg _ (by simp [h])]
      exact ih

/-- Under a pointwise raised lookup, catalog contribution sums do not
decrease and presence counts are unchanged. -/
theorem filterMap_find_mono (l l2 : List CheckResult) (c c2 : CheckResult)
    (hpt : ∀ id : String,
      (l2.find? (fun item => item.id = id) = l.find? (fun item => item.id = id)) ∨
      (l.find? (fun item => item.id = id) = some c ∧
        l2.find? (fun item => item.id = id) = some c2))
    (hsc : scoreStatus c.status ≤ scoreStatus c2.status) :
    ∀ LC : List CheckDefinition,
      ((LC.filterMap (fun cd => l.find? (fun item => item.id = cd.id))).map
          (fun r => scoreStatus r.status)).sum ≤
        ((LC.filterMap (fun cd => l2.find? (fun item => item.id = cd.id))).map
          (fun r => scoreStatus r.status)).sum ∧
      LC.countP (fun cd => (l.find? (fun item => item.id = cd.id)).isSome) =
        LC.countP (fun cd => (l2.find? (fun item => item.id = cd.id)).isSome) := by
  intro LC
  induction LC with
  | nil => simp
  | cons cd LC ih =>
    rcases hpt cd.id with heq | ⟨h1, h2⟩
    · rw [List.filterMap_cons, List.filterMap_cons, List.countP_cons, List.countP_cons, heq]
      rcases hf : l.find? (fun item => item.id = cd.id) with _ | r
      · simp only [hf]
        exact ⟨ih.1, by rw [ih.2]⟩
      · simp only [hf, List.map_cons, List.sum_cons, Option.isSome_some]
        exact ⟨add_le_add_left ih.1 _, by rw [ih.2]⟩
    · rw [List.filterMap_cons, List.filterMap_cons, List.countP_cons, List.countP_cons,
        h1, h2]
      simp only [List.map_cons, List.sum_cons, Option.isSome_some]
      exact ⟨add_le_add hsc ih.1, by rw [ih.2]⟩

/-- C9: scoring is monotone in check statuses — raising the status of a
single check (fail < warn < pass), all other checks unchanged, never
decreases any pillar score nor the overall score, for every profile. -/
theorem C9_score_monotone (pre post : List CheckResult) (c : CheckResult)
    (s2 : CheckStatus) (profile : EvaluationProfile)
    (h : statusLe c.status s2) :
    (∀ p : Pillar,
      (aggregateScores (pre ++ c :: post) profile).pillarScores p ≤
        (aggregateScores (pre ++ { c with status := s2 } :: post) profile).pillarScores p) ∧
    (aggregateScores (pre ++ c :: post) profile).score ≤
      (aggregateScores (pre ++ { c with status := s2 } :: post) profile).score := by
  set c2 : CheckResult := { c with status := s2 } with hc2
  have hid : c2.id = c.id := rfl
  have hpt := find?_raise pre post c c2 hid
  have hsc : scoreStatus c.status ≤ scoreStatus c2.status := scoreStatus_mono h
  have key := filterMap_find_mono (pre ++ c :: post) (pre ++ c2 :: post) c c2 hpt hsc
  have hpillar : ∀ p : Pillar,
      pillarScore (pre ++ c :: post) p ≤ pillarScore (pre ++ c2 :: post) p := by
    intro p
    have kp := key (CHECKS.filter (fun cd => cd.pillar = p))
    rw [pillarScore, pillarScore, pillarTotals, pillarTotals, pillarTotals_char,
      pillarTotals_char]
    simp only [zero_add]
    rw [kp.2]
    split
    · exact le_refl _
    · rename_i hn
      have hn' : (0:ℚ) <
          ((CHECKS.filter (fun cd => cd.pillar = p)).countP
            (fun cd => ((pre ++ c2 :: post).find? (fun item => item.id = cd.id)).isSome) : ℚ) := by
        exact_mod_cast Nat.pos_of_ne_zero hn
      apply jsRound_mono
      apply mul_le_mul_of_nonneg_right _ (by norm_num : (0:ℚ) ≤ 100)
      exact (div_le_div_right hn').mpr kp.1
  refine ⟨hpillar, ?_⟩
  show jsRound (totalScore (pre ++ c :: post) profile) ≤
    jsRound (totalScore (pre ++ c2 :: post) profile)
  apply jsRound_mono
  have hw : ∀ p : Pillar, 0 ≤ PROFILE_WEIGHTS profile p := by
    intro p; cases profile <;> cases p <;> norm_num [PROFILE_WEIGHTS]
  simp only [totalScore, PILLAR_KEYS, List.foldl_cons, List.foldl_nil]
  gcongr <;> first
    | exact hw _
    | exact hpillar _

/-- A concrete check used to witness the monotonicity theorem. -/
def c9check : CheckResult :=
  { id := "D1", status := .fail, severity := .high, summary := "x", evidence := [] }

theorem C9_score_monotone_witness :
    statusLe c9check.status .pass ∧
    ((∀ p : Pillar,
      (aggregateScores ([] ++ c9check :: []) .auto).pillarScores p ≤
        (aggregateScores ([] ++ { c9check with status := .pass } :: []) .auto).pillarScores p) ∧
      (aggregateScores ([] ++ c9check :: []) .auto).score ≤
        (aggregateScores ([] ++ { c9check with status := .pass } :: []) .auto).score) :=
  ⟨by decide, C9_score_monotone [] [] c9check .pass .auto (by decide)⟩

/-- Substring search on character lists (JS String.prototype.includes). -/
def containsSub (sub : List Char) : List Char → Bool
  | [] => sub.isEmpty
  | c :: rest => sub.isPrefixOf (c :: rest) || containsSub sub rest

/-- Whether a character is JS whitespace (the common WhiteSpace and
LineTerminator code points). -/
def isJsSpace (c : Char) : Bool :=
  c = ' ' || c = '\t' || c = '\n' || c = '\r' ||
    c.toNat = 11 || c.toNat = 12 || c.toNat = 160 || c.toNat = 65279

/-- JS String.prototype.trim, over the underlying character list (Lean's own
String.trim is not kernel-reducible, so the model works on .data). -/
def jsTrim (s : String) : String :=
  String.mk (((s.data.dropWhile isJsSpace).reverse.dropWhile isJsSpace).reverse)

/-- JS String.prototype.toLowerCase, modelled for the ASCII range (hostnames
and the header values the code lowercases are ASCII). -/
def jsToLower (s : String) : String := String.mk (s.data.map Char.toLower)

/-- JS String.prototype.endsWith. -/
def jsEndsWith (s suffix : String) : Bool := suffix.data.isSuffixOf s.data

/-- JS String.prototype.startsWith. -/
def jsStartsWith (s pre : String) : Bool := pre.data.isPrefixOf s.data

/-- JS String.prototype.includes. -/
def jsIncludes (s sub : String) : Bool := containsSub sub.data s.data

/-- A redirect hop, from ssrf.ts: one redirect step's URL and status. -/
structure RedirectHop where
  url : String
  status : ℤ
deriving DecidableEq, Repr

/-- FetchResult from ssrf.ts.  The fetchedAt wall-clock timestamp is not
modelled; contentLength is a JS number or undefined, where the inner Option
is none for a non-finite number (NaN from parsing a bad content-length
header). -/
structure FetchResult where
  url : String
  status : ℤ
  headers : List (String × String)
  contentType : Option String := none
  contentLength : Option (Option ℚ) := none
  bodyText : Option String := none
  sha256 : Option String := none
  redirectChain : List RedirectHop := []
deriving DecidableEq, Repr

/-- SafeFetchOptions from ssrf.ts.  The timeout fields are carried but drive
no logic in the pure model (timers only abort the transport call, which the
environment's net function already covers). -/
structure SafeFetchOptions where
  method : Option String := none
  headers : List (String × String) := []
  body : Option String := none
  timeoutMs : Option ℚ := none
  maxBytes : Option ℕ := none
  maxRedirects : Option ℕ := none
  connectTimeoutMs : Option ℚ := none
deriving DecidableEq, Repr

/-- BLOCKED_HOSTNAMES from ssrf.ts. -/
def BLOCKED_HOSTNAMES : List String := ["localhost", "localhost.localdomain", "local"]

/-- BLOCKED_RANGES from ssrf.ts: the ipaddr.js range names that are
rejected. -/
def BLOCKED_RANGES : List String :=
  ["unspecified", "loopback", "linkLocal", "uniqueLocal", "private",
   "carrierGradeNat", "broadcast", "multicast", "reserved"]

/-- Default total timeout in milliseconds, from ssrf.ts. -/
def DEFAULT_TIMEOUT_MS : ℚ := 15000

/-- Default connect timeout in milliseconds, from ssrf.ts. -/
def DEFAULT_CONNECT_TIMEOUT_MS : ℚ := 5000

/-- Default body byte cap, from ssrf.ts: 2 * 1024 * 1024. -/
def DEFAULT_MAX_BYTES : ℕ := 2 * 1024 * 1024

/-- Default redirect budget, from ssrf.ts. -/
def DEFAULT_MAX_REDIRECTS : ℕ := 5

/-- The protocol and hostname a WHATWG URL parse exposes (the two fields
safeFetch reads). -/
structure UrlParts where
  protocol : String
  hostname : String
deriving DecidableEq, Repr

/-- One transport-level HTTP exchange as safeFetch sees it: a status, the
response headers (keys normalized to lower case, as the fetch Headers object
does), and an optional body stream delivered as chunks of bytes. -/
structure RawResponse where
  status : ℤ
  headers : List (String × String)
  body : Option (List (List ℕ)) := none
deriving DecidableEq, Repr

/-- The external world of the ssrf module: URL parsing and resolution
(WHATWG), ipaddr.js validity and range classification, DNS, the transport
fetch, sha256 and UTF-8 decoding, and JS Number parsing.  parseUrl and
resolveUrl return none when the URL constructor would throw; dnsLookup's
error is the thrown DNS exception message; toFiniteNumber returns none when
Number() yields a non-finite value. -/
structure SsrfEnv where
  parseUrl : String → Option UrlParts
  resolveUrl : String → String → Option String
  isValidIp : String → Bool
  ipRange : String → String
  dnsLookup : String → Except String (List String)
  net : String → Except String RawResponse
  hash : List ℕ → String
  utf8 : List ℕ → String
  toFiniteNumber : String → Option ℚ

/-- normalizeHostname from ssrf.ts: trim and lower-case. -/
def normalizeHostname (hostname : String) : String := jsToLower (jsTrim hostname)

/-- isBlockedIp from ssrf.ts: invalid strings are not blocked; a valid IP is
blocked when its ipaddr.js range is in BLOCKED_RANGES. -/
def isBlockedIp (env : SsrfEnv) (ip : String) : Bool :=
  if ¬ env.isValidIp ip then false
  else BLOCKED_RANGES.contains (env.ipRange ip)

/-- assertPublicHost from ssrf.ts, with throws as Except errors: reject
blocked hostname literals and any .local name; validate a literal IP
directly; otherwise resolve and reject when resolution is empty or any
resolved address is blocked. -/
def assertPublicHost (env : SsrfEnv) (hostname : String) : Except String Unit :=
  let normalized := normalizeHostname hostname
  if BLOCKED_HOSTNAMES.contains normalized || jsEndsWith normalized ".local" then
    .error "Blocked hostname"
  else if env.isValidIp normalized then
    if isBlockedIp env normalized then .error "Blocked IP address" else .ok ()
  else
    match env.dnsLookup normalized with
    | .error e => .error e
    | .ok records =>
      if records.isEmpty then .error "DNS resolution failed"
      else if records.any (fun record => isBlockedIp env record) then
        .error "Blocked IP address"
      else .ok ()

/-- Headers.get on the response header map (keys already normalized). -/
def getHeader (headers : List (String × String)) (name : String) : Option String :=
  headers.lookup name

/-- The chunk-reading loop of readBodyWithLimit: accumulate the total size,
fail hard as soon as it exceeds maxBytes, otherwise keep the chunk. -/
def readBodyLoop (maxBytes : ℕ) : ℕ → List (List ℕ) → Except String (List (List ℕ))
  | _, [] => .ok []
  | total, chunk :: rest =>
    let total2 := total + chunk.length
    if total2 > maxBytes then .error "Response too large"
    else
      match readBodyLoop maxBytes total2 rest with
      | .error e => .error e
      | .ok chunks => .ok (chunk :: chunks)

/-- The data readBodyWithLimit returns on success. -/
structure BodyData where
  bodyText : String
  sha256 : String
  contentLength : ℕ
deriving DecidableEq, Repr

/-- readBodyWithLimit from ssrf.ts: a missing body stream yields empty text,
an empty hash and length 0; otherwise the chunks are read under the cap and
the hash is computed over the exact bytes read. -/
def readBodyWithLimit (env : SsrfEnv) (response : RawResponse) (maxBytes : ℕ) :
    Except String BodyData :=
  match response.body with
  | none => .ok { bodyText := "", sha256 := "", contentLength := 0 }
  | some chunks =>
    match readBodyLoop maxBytes 0 chunks with
    | .error e => .error e
    | .ok kept =>
      let buffer := kept.flatten
      .ok { bodyText := env.utf8 buffer, sha256 := env.hash buffer,
            contentLength := buffer.length }

/-- getRedirectUrl from ssrf.ts: resolve the Location value against the
current URL (none when the URL constructor would throw). -/
def getRedirectUrl (env : SsrfEnv) (currentUrl location : String) : Option String :=
  env.resolveUrl location currentUrl

/-- safeFetch from ssrf.ts, instrumented with the list of URLs handed to the
transport fetch (second component), so the no-blocked-request property can be
stated.  Every throw becomes an Except error carrying the thrown message; the
redirect branch re-validates the scheme and host of the resolved target and
recurses with a decremented budget, exactly as the source does. -/
def safeFetch (env : SsrfEnv) (url : String) (options : SafeFetchOptions)
    (redirectChain : List RedirectHop) : Except String FetchResult × List String :=
  match env.parseUrl url with
  | none => (.error "Invalid URL", [])
  | some target =>
    if target.protocol ≠ "http:" ∧ target.protocol ≠ "https:" then
      (.error "Only http/https URLs are allowed", [])
    else
      match assertPublicHost env target.hostname with
      | .error e => (.error e, [])
      | .ok _ =>
        let maxBytes := options.maxBytes.getD DEFAULT_MAX_BYTES
        let maxRedirects := options.maxRedirects.getD DEFAULT_MAX_REDIRECTS
        match env.net url with
        | .error e => (.error e, [url])
        | .ok response =>
          if ([(301:ℤ), 302, 303, 307, 308].contains response.status &&
              (getHeader response.headers "location").isSome) then
            if h0 : maxRedirects ≤ 0 then (.error "Too many redirects", [url])
            else
              match getHeader response.headers "location" with
              | none => (.error "Redirect without location", [url])
              | some location =>
                if location = "" then (.error "Redirect without location", [url])
                else
                  match getRedirectUrl env url location with
                  | none => (.error "Invalid URL", [url])
                  | some nextUrl =>
                    match env.parseUrl nextUrl with
                    | none => (.error "Invalid URL", [url])
                    | some nextTarget =>
                      if nextTarget.protocol ≠ "http:" ∧ nextTarget.protocol ≠ "https:" then
                        (.error "Redirect to non-http(s) URL", [url])
                      else
                        match assertPublicHost env nextTarget.hostname with
                        | .error e => (.error e, [url])
                        | .ok _ =>
                          let nextChain :=
                            redirectChain ++ [{ url := url, status := response.status }]
                          let deeper := safeFetch env nextUrl
                            { options with maxRedirects := some (maxRedirects - 1) } nextChain
                          (deeper.1, url :: deeper.2)
          else
            let contentType := getHeader response.headers "content-type"
            let headerLength : Option (Option ℚ) :=
              match getHeader response.headers "content-length" with
              | none => none
              | some s => if s = "" then none else some (env.toFiniteNumber s)
            if response.status ≠ 204 ∧ response.status ≠ 304 ∧ options.method ≠ some "HEAD" then
              match readBodyWithLimit env response maxBytes with
              | .error e => (.error e, [url])
              | .ok bodyResult =>
                let contentLength :=
                  match headerLength with
                  | some (some q) => some (some q)
                  | _ => some (some (bodyResult.contentLength : ℚ))
                (.ok { url := url, status := response.status, headers := response.headers,
                       contentType := contentType, contentLength := contentLength,
                       bodyText := some bodyResult.bodyText,
                       sha256 := some bodyResult.sha256,
                       redirectChain := redirectChain }, [url])
            else
              (.ok { url := url, status := response.status, headers := response.headers,
                     contentType := contentType, contentLength := headerLength,
                     bodyText := none, sha256 := none,
                     redirectChain := redirectChain }, [url])
termination_by options.maxRedirects.getD DEFAULT_MAX_REDIRECTS
decreasing_by
  simp only [Option.getD_some]
  omega

/-- Every URL that safeFetch hands to the transport has first been parsed,
scheme-checked (http or https) and validated by assertPublicHost — at the
initial hop and again at every redirect hop. -/
theorem safeFetch_trace_hosts (env : SsrfEnv) :
    ∀ (b : ℕ) (url : String) (opts : SafeFetchOptions) (chain : List RedirectHop),
      opts.maxRedirects.getD DEFAULT_MAX_REDIRECTS = b →
      ∀ u ∈ (safeFetch env url opts chain).2,
        ∃ parts, env.parseUrl u = some parts ∧
          (parts.protocol = "http:" ∨ parts.protocol = "https:") ∧
          assertPublicHost env parts.hostname = .ok () := by
  intro b
  induction b using Nat.strong_induction_on with
  | _ b ih =>
    intro url opts chain hb u hu
    rw [safeFetch] at hu
    split at hu
    · simp at hu
    · rename_i target hparse
      split at hu
      · simp at hu
      · rename_i hproto
        push_neg at hproto
        have hproto2 : target.protocol = "http:" ∨ target.protocol = "https:" := by
          by_cases hp : target.protocol = "http:"
          · exact Or.inl hp
          · exact Or.inr (hproto hp)
        split at hu
        · simp at hu
        · rename_i hassert
          rcases hnet : env.net url with e | response <;> simp only [hnet] at hu
          · simp at hu
            subst hu
            exact ⟨target, hparse, hproto2, hassert⟩
          · by_cases hred : ([(301:ℤ), 302, 303, 307, 308].contains response.status &&
                (getHeader response.headers "location").isSome) = true
            · simp only [hred, if_true] at hu
              by_cases h0 : opts.maxRedirects.getD DEFAULT_MAX_REDIRECTS ≤ 0
              · rw [dif_pos h0] at hu
                simp at hu
                subst hu
                exact ⟨target, hparse, hproto2, hassert⟩
              · rw [dif_neg h0] at hu
                rcases hloc : getHeader response.headers "location" with _ | location <;>
                  simp only [hloc] at hu
                · simp at hu
                  subst hu
                  exact ⟨target, hparse, hproto2, hassert⟩
                · by_cases hemp : location = ""
                  · rw [if_pos hemp] at hu
                    simp at hu
                    subst hu
                    exact ⟨target, hparse, hproto2, hassert⟩
                  · rw [if_neg hemp] at hu
                    rcases hres : getRedirectUrl env url location with _ | nextUrl <;>
                      simp only [hres] at hu
                    · simp at hu
                      subst hu
                      exact ⟨target, hparse, hproto2, hassert⟩
                    · rcases hnp : env.parseUrl nextUrl with _ | nextTarget <;>
                        simp only [hnp] at hu
                      · simp at hu
                        subst hu
                        exact ⟨target, hparse, hproto2, hassert⟩
                      · by_cases hnproto :
                          nextTarget.protocol ≠ "http:" ∧ nextTarget.protocol ≠ "https:"
                        · rw [if_pos hnproto] at hu
                          simp at hu
                          subst hu
                          exact ⟨target, hparse, hproto2, hassert⟩
                        · rw [if_neg hnproto] at hu
                          rcases hna : assertPublicHost env nextTarget.hostname with e2 | v <;>
                            simp only [hna] at hu
                          · simp at hu
                            subst hu
                            exact ⟨target, hparse, hproto2, hassert⟩
                          · simp only [List.mem_cons] at hu
                            rcases hu with hu | hu
                            · subst hu
                              exact ⟨target, hparse, hproto2, hassert⟩
                            · exact ih (opts.maxRedirects.getD DEFAULT_MAX_REDIRECTS - 1)
                                (by omega) _ _ _ (by simp) u hu
            · simp only [Bool.not_eq_true] at hred
              simp only [hred, Bool.false_eq_true, if_false] at hu
              by_cases hbody :
                  response.status ≠ 204 ∧ response.status ≠ 304 ∧ opts.method ≠ some "HEAD"
              · rw [if_pos hbody] at hu
                rcases hrb : readBodyWithLimit env response
                    (opts.maxBytes.getD DEFAULT_MAX_BYTES) with e3 | bodyResult <;>
                  simp only [hrb] at hu
                · simp at hu
                  subst hu
                  exact ⟨target, hparse, hproto2, hassert⟩
                · simp at hu
                  subst hu
                  exact ⟨target, hparse, hproto2, hassert⟩
              · rw [if_neg hbody] at hu
                simp at hu
                subst hu
                exact ⟨target, hparse, hproto2, hassert⟩

/-- C1: every redirect hop is re-validated before it is followed.  First
part: every URL safeFetch hands to the transport parses with an http/https
scheme and passes assertPublicHost (so its hostname is not blocked and
resolves only to non-blocked addresses) — hence no request is ever issued to
a host in a blocked range, at any hop.  Second part: when a response is a
redirect whose resolved target's hostname fails assertPublicHost (for
instance because it resolves to a blocked IP), safeFetch fails with that
validation error even though the initial host was public. -/
theorem C1_safeFetch_revalidates_redirects (env : SsrfEnv) (url : String)
    (opts : SafeFetchOptions) (chain : List RedirectHop) :
    (∀ u ∈ (safeFetch env url opts chain).2,
      ∃ parts, env.parseUrl u = some parts ∧
        (parts.protocol = "http:" ∨ parts.protocol = "https:") ∧
        assertPublicHost env parts.hostname = .ok ()) ∧
    (∀ (target : UrlParts) (response : RawResponse) (location nextUrl : String)
        (nextTarget : UrlParts) (e : String),
      env.parseUrl url = some target →
      (target.protocol = "http:" ∨ target.protocol = "https:") →
      assertPublicHost env target.hostname = .ok () →
      env.net url = .ok response →
      ([(301:ℤ), 302, 303, 307, 308].contains response.status &&
        (getHeader response.headers "location").isSome) = true →
      ¬ (opts.maxRedirects.getD DEFAULT_MAX_REDIRECTS ≤ 0) →
      getHeader response.headers "location" = some location →
      location ≠ "" →
      getRedirectUrl env url location = some nextUrl →
      env.parseUrl nextUrl = some nextTarget →
      (nextTarget.protocol = "http:" ∨ nextTarget.protocol = "https:") →
      assertPublicHost env nextTarget.hostname = .error e →
      (safeFetch env url opts chain).1 = .error e) := by
  constructor
  · exact safeFetch_trace_hosts env (opts.maxRedirects.getD DEFAULT_MAX_REDIRECTS)
      url opts chain rfl
  · intro target response location nextUrl nextTarget e hparse hproto hassert hnet hred
      h0 hloc hemp hres hnparse hnproto hna
    rw [safeFetch]
    simp only [hparse]
    rw [if_neg (by rcases hproto with h | h <;> simp [h])]
    simp only [hassert, hnet, hred, if_true]
    rw [dif_neg h0]
    simp only [getRedirectUrl] at hres
    simp only [hloc, if_neg hemp, getRedirectUrl, hres, hnparse]
    rw [if_neg (by rcases hnproto with h | h <;> simp [h])]
    simp only [hna]

/-- A concrete world for the C1 witness: a public host whose response
redirects to a host resolving to a private address. -/
def c1env : SsrfEnv :=
  { parseUrl := fun s =>
      if s = "http://good.example/" then
        some { protocol := "http:", hostname := "good.example" }
      else if s = "http://evil.internal/" then
        some { protocol := "http:", hostname := "evil.internal" }
      else none
    resolveUrl := fun location _ =>
      if location = "http://evil.internal/" then some "http://evil.internal/" else none
    isValidIp := fun s => s = "93.184.216.34" || s = "10.0.0.5"
    ipRange := fun s => if s = "10.0.0.5" then "private" else "unicast"
    dnsLookup := fun h =>
      if h = "good.example" then .ok ["93.184.216.34"]
      else if h = "evil.internal" then .ok ["10.0.0.5"]
      else .error "getaddrinfo ENOTFOUND"
    net := fun u =>
      if u = "http://good.example/" then
        .ok { status := 302, headers := [("location", "http://evil.internal/")],
              body := some [] }
      else .error "fetch failed"
    hash := fun _ => "h"
    utf8 := fun _ => ""
    toFiniteNumber := fun _ => none }

theorem C1_safeFetch_revalidates_redirects_witness :
    (safeFetch c1env "http://good.example/" {} []).1 = .error "Blocked IP address" ∧
    ∀ u ∈ (safeFetch c1env "http://good.example/" {} []).2,
      ∃ parts, c1env.parseUrl u = some parts ∧
        (parts.protocol = "http:" ∨ parts.protocol = "https:") ∧
        assertPublicHost c1env parts.hostname = .ok () := by
  have h := C1_safeFetch_revalidates_redirects c1env "http://good.example/" {} []
  refine ⟨h.2 { protocol := "http:", hostname := "good.example" }
    { status := 302, headers := [("location", "http://evil.internal/")], body := some [] }
    "http://evil.internal/" "http://evil.internal/"
    { protocol := "http:", hostname := "evil.internal" } "Blocked IP address"
    rfl (Or.inl rfl) rfl rfl rfl (by decide) rfl (by decide) rfl rfl (Or.inl rfl) rfl,
    h.1⟩

/-- When the running total never exceeds the cap, the reading loop returns
every chunk. -/
theorem readBodyLoop_ok (maxBytes : ℕ) :
    ∀ (chunks : List (List ℕ)) (total : ℕ),
      total + (chunks.map List.length).sum ≤ maxBytes →
      readBodyLoop maxBytes total chunks = .ok chunks := by
  intro chunks
  induction chunks with
  | nil => intro total _; rfl
  | cons c rest ih =>
    intro total h
    simp only [List.map_cons, List.sum_cons] at h
    simp only [readBodyLoop]
    rw [if_neg (by omega)]
    rw [ih (total + c.length) (by omega)]

/-- As soon as the chunks push the total past the cap, the reading loop
fails with the oversize error (and returns no bytes at all). -/
theorem readBodyLoop_err (maxBytes : ℕ) :
    ∀ (chunks : List (List ℕ)) (total : ℕ),
      total ≤ maxBytes →
      total + (chunks.map List.length).sum > maxBytes →
      readBodyLoop maxBytes total chunks = .error "Response too large" := by
  intro chunks
  induction chunks with
  | nil =>
    intro total h1 h2
    simp at h2
    omega
  | cons c rest ih =>
    intro total h1 h2
    simp only [List.map_cons, List.sum_cons] at h2
    simp only [readBodyLoop]
    by_cases hc : total + c.length > maxBytes
    · rw [if_pos hc]
    · rw [if_neg hc]
      rw [ih (total + c.length) (by omega) (by omega)]

/-- C2: with the transport returning a non-redirect response whose body
streams the given chunks, a body totalling exactly the configured byte cap
(default 2097152) succeeds — safeFetch returns the full body with its content
hash over exactly those bytes — while a body exceeding the cap makes
safeFetch fail with the oversize error, never returning a truncated body. -/
theorem C2_safeFetch_body_cap (env : SsrfEnv) (url : String) (opts : SafeFetchOptions)
    (chain : List RedirectHop) (target : UrlParts) (response : RawResponse)
    (chunks : List (List ℕ))
    (hparse : env.parseUrl url = some target)
    (hproto : target.protocol = "http:" ∨ target.protocol = "https:")
    (hassert : assertPublicHost env target.hostname = .ok ())
    (hnet : env.net url = .ok response)
    (hnored : ([(301:ℤ), 302, 303, 307, 308].contains response.status &&
        (getHeader response.headers "location").isSome) = false)
    (h204 : response.status ≠ 204) (h304 : response.status ≠ 304)
    (hhead : opts.method ≠ some "HEAD")
    (hbody : response.body = some chunks) :
    DEFAULT_MAX_BYTES = 2097152 ∧
    ((chunks.map List.length).sum = opts.maxBytes.getD DEFAULT_MAX_BYTES →
      ∃ r, (safeFetch env url opts chain).1 = .ok r ∧
        r.bodyText = some (env.utf8 chunks.flatten) ∧
        r.sha256 = some (env.hash chunks.flatten) ∧
        r.status = response.status ∧ r.url = url ∧ r.redirectChain = chain) ∧
    ((chunks.map List.length).sum > opts.maxBytes.getD DEFAULT_MAX_BYTES →
      (safeFetch env url opts chain).1 = .error "Response too large") := by
  refine ⟨rfl, ?_, ?_⟩
  · intro hcap
    have hok := readBodyLoop_ok (opts.maxBytes.getD DEFAULT_MAX_BYTES) chunks 0 (by omega)
    have hread : readBodyWithLimit env response (opts.maxBytes.getD DEFAULT_MAX_BYTES) =
        .ok { bodyText := env.utf8 chunks.flatten, sha256 := env.hash chunks.flatten,
              contentLength := chunks.flatten.length } := by
      rw [readBodyWithLimit, hbody]
      simp only [hok]
    rw [safeFetch]
    simp only [hparse]
    rw [if_neg (by rcases hproto with h | h <;> simp [h])]
    simp only [hassert, hnet, hnored, Bool.false_eq_true, if_false]
    rw [if_pos ⟨h204, h304, hhead⟩]
    simp only [hread]
    exact ⟨_, rfl, rfl, rfl, rfl, rfl, rfl⟩
  · intro hover
    have herr := readBodyLoop_err (opts.maxBytes.getD DEFAULT_MAX_BYTES) chunks 0
      (by omega) (by omega)
    have hread : readBodyWithLimit env response (opts.maxBytes.getD DEFAULT_MAX_BYTES) =
        .error "Response too large" := by
      rw [readBodyWithLimit, hbody]
      simp only [herr]
    rw [safeFetch]
    simp only [hparse]
    rw [if_neg (by rcases hproto with h | h <;> simp [h])]
    simp only [hassert, hnet, hnored, Bool.false_eq_true, if_false]
    rw [if_pos ⟨h204, h304, hhead⟩]
    simp only [hread]

/-- A concrete world for the C2 witness: a public host answering 200 with a
three-byte body in two chunks. -/
def c2env : SsrfEnv :=
  { parseUrl := fun s =>
      if s = "http://ok.example/" then
        some { protocol := "http:", hostname := "ok.example" }
      else none
    resolveUrl := fun _ _ => none
    isValidIp := fun _ => false
    ipRange := fun _ => "unicast"
    dnsLookup := fun h =>
      if h = "ok.example" then .ok ["93.184.216.34"] else .error "getaddrinfo ENOTFOUND"
    net := fun u =>
      if u = "http://ok.example/" then
        .ok { status := 200, headers := [], body := some [[1, 2], [3]] }
      else .error "fetch failed"
    hash := fun _ => "h"
    utf8 := fun _ => "abc"
    toFiniteNumber := fun _ => none }

theorem C2_safeFetch_body_cap_witness :
    (∃ r, (safeFetch c2env "http://ok.example/" { maxBytes := some 3 } []).1 = .ok r ∧
      r.bodyText = some (c2env.utf8 ([[1, 2], [3]] : List (List ℕ)).flatten) ∧
      r.sha256 = some (c2env.hash ([[1, 2], [3]] : List (List ℕ)).flatten) ∧
      r.status = 200 ∧ r.url = "http://ok.example/" ∧ r.redirectChain = []) ∧
    (safeFetch c2env "http://ok.example/" { maxBytes := some 2 } []).1 =
      .error "Response too large" := by
  constructor
  · exact (C2_safeFetch_body_cap c2env "http://ok.example/" { maxBytes := some 3 } []
      { protocol := "http:", hostname := "ok.example" }
      { status := 200, headers := [], body := some [[1, 2], [3]] } [[1, 2], [3]]
      rfl (Or.inl rfl) rfl rfl rfl (by decide) (by decide) (by decide) rfl).2.1 (by decide)
  · exact (C2_safeFetch_body_cap c2env "http://ok.example/" { maxBytes := some 2 } []
      { protocol := "http:", hostname := "ok.example" }
      { status := 200, headers := [], body := some [[1, 2], [3]] } [[1, 2], [3]]
      rfl (Or.inl rfl) rfl rfl rfl (by decide) (by decide) (by decide) rfl).2.2 (by decide)

/-- JSON values as JSON.parse produces them (numbers read as exact
rationals). -/
inductive Json
  | null
  | bool (b : Bool)
  | num (q : ℚ)
  | str (s : String)
  | arr (xs : List Json)
  | obj (fields : List (String × Json))

/-- Whether a JSON value has JS typeof "object" while being truthy: objects
and arrays (null is handled by the truthiness checks around each use). -/
def jsObjOrArr : Json → Bool
  | .obj _ => true
  | .arr _ => true
  | _ => false

/-- JS typeof x === "object": objects, arrays and null. -/
def jsTypeofObject : Json → Bool
  | .obj _ => true
  | .arr _ => true
  | .null => true
  | _ => false

/-- JS truthiness of a JSON value (NaN does not arise from JSON.parse). -/
def jsTruthyJ : Json → Bool
  | .null => false
  | .bool b => b
  | .num q => decide (q ≠ 0)
  | .str s => decide (s ≠ "")
  | .arr _ => true
  | .obj _ => true

/-- JS truthiness of a possibly-undefined JSON value. -/
def jsTruthyOpt : Option Json → Bool
  | some j => jsTruthyJ j
  | none => false

/-- Digits-only string to number, for JS array indexing by a string key. -/
def digitsToNat : List Char → Option ℕ
  | [] => none
  | cs =>
    cs.foldl
      (fun acc c =>
        match acc with
        | none => none
        | some n => if c.isDigit then some (n * 10 + (c.toNat - 48)) else none)
      (some 0)

/-- JS property access value[key] on a JSON value: object field lookup,
array indexing for a numeric key, undefined otherwise. -/
def jsGetField (j : Json) (key : String) : Option Json :=
  match j with
  | .obj fields => fields.lookup key
  | .arr xs =>
    match digitsToNat key.data with
    | some i => xs.get? i
    | none => none
  | _ => none

/-- The guarded property access pattern `x ? x[key] : undefined` used by the
OpenAPI example walk. -/
def jsProp (o : Option Json) (key : String) : Option Json :=
  match o with
  | some j => if jsTruthyJ j then jsGetField j key else none
  | none => none

/-- Index-to-key rendering for Object.entries over an array. -/
def enumIdx : ℕ → List Json → List (String × Json)
  | _, [] => []
  | i, x :: xs => (Nat.repr i, x) :: enumIdx (i + 1) xs

/-- Object.entries of a JSON value: object fields in insertion order, array
elements under their index keys, string characters under index keys,
nothing for primitives. -/
def jsEntries : Json → List (String × Json)
  | .obj fields => fields
  | .arr xs => enumIdx 0 xs
  | .str s => enumIdx 0 (s.data.map (fun c => Json.str (String.mk [c])))
  | _ => []

/-- Object.keys(...).length of a possibly-undefined JSON value. -/
def keysCount : Option Json → ℕ
  | some (.obj fields) => fields.length
  | some (.arr xs) => xs.length
  | some (.str s) => s.data.length
  | _ => 0

/-- One step of getNestedString's path walk: undefined when the current
value is falsy or not an object, else the property value. -/
def getNestedStep (current : Option Json) (key : String) : Option Json :=
  match current with
  | none => none
  | some j => if jsTruthyJ j && jsObjOrArr j then jsGetField j key else none

/-- getNestedString from evaluatePublic.ts: walk the key path, then keep the
final value only when it is a string with non-blank trim. -/
def getNestedString (record : Option Json) (path : List String) : Option String :=
  match path.foldl getNestedStep record with
  | some (.str s) => if jsTrim s ≠ "" then some s else none
  | _ => none

/-- Case-insensitive character comparison (ASCII folding). -/
def lowerEq (a b : Char) : Bool := a.toLower = b.toLower

/-- Case-insensitive prefix test. -/
def isPrefixCI : List Char → List Char → Bool
  | [], _ => true
  | _ :: _, [] => false
  | p :: ps, c :: rest => lowerEq p c && isPrefixCI ps rest

/-- The first capture of the regex matching an angle-bracketed URL in a Link
header part: scan for a < with a later > and at least one character
between. -/
def angleCapture : List Char → Option (List Char)
  | [] => none
  | c :: rest =>
    if c = '<' then
      let cap := rest.takeWhile (fun ch => ch ≠ '>')
      if cap ≠ [] ∧ rest.dropWhile (fun ch => ch ≠ '>') ≠ [] then some cap
      else angleCapture rest
    else angleCapture rest

/-- Attempt the rel-attribute regex at the start of the character list:
rel (case-insensitive), optional spaces, =, optional spaces, an optional
double quote, then a non-empty capture of characters other than double quote
and semicolon. -/
def tryRel (cs : List Char) : Option (List Char) :=
  match cs with
  | a :: b :: c :: rest =>
    if lowerEq a 'r' && lowerEq b 'e' && lowerEq c 'l' then
      match rest.dropWhile isJsSpace with
      | '=' :: rest2 =>
        let rest3 := rest2.dropWhile isJsSpace
        let rest4 := match rest3 with
          | '"' :: r => r
          | r => r
        let cap := rest4.takeWhile (fun ch => ch ≠ '"' ∧ ch ≠ ';')
        if cap ≠ [] then some cap else none
      | _ => none
    else none
  | _ => none

/-- First match of the rel-attribute regex anywhere in the part. -/
def relCapture : List Char → Option (List Char)
  | [] => none
  | c :: rest =>
    match tryRel (c :: rest) with
    | some cap => some cap
    | none => relCapture rest

/-- Split a character list on a separator character (JS String.split). -/
def splitOnChar (sep : Char) : List Char → List (List Char)
  | [] => [[]]
  | c :: rest =>
    let r := splitOnChar sep rest
    if c = sep then [] :: r
    else
      match r with
      | [] => [[c]]
      | h :: t => (c :: h) :: t

/-- The loop of extractServiceDescFromLink over the comma-separated parts:
return the angle-bracketed URL of the first part whose rel capture is
exactly service-desc. -/
def linkLoop : List (List Char) → Option String
  | [] => none
  | part :: rest =>
    match angleCapture part, relCapture part with
    | some u, some r =>
      if r = "service-desc".data then some (String.mk u) else linkLoop rest
    | _, _ => linkLoop rest

/-- extractServiceDescFromLink from evaluatePublic.ts (undefined or empty
header values yield undefined, as the JS falsiness check does). -/
def extractServiceDescFromLink (headerValue : Option String) : Option String :=
  match headerValue with
  | none => none
  | some hv =>
    if hv = "" then none
    else linkLoop (splitOnChar ',' hv.data)

/-- Case-insensitive substring test. -/
def containsCI (pat : List Char) : List Char → Bool
  | [] => pat.isEmpty
  | c :: rest => isPrefixCI pat (c :: rest) || containsCI pat rest

/-- Whether the rel="service-desc" attribute pattern (either quote kind,
case-insensitive) starts at this position. -/
def relServiceDescAt (cs : List Char) : Bool :=
  if isPrefixCI "rel=".data cs then
    match cs.drop 4 with
    | q :: rest =>
      (q = '"' || q = Char.ofNat 39) && isPrefixCI "service-desc".data rest &&
        (match rest.drop 12 with
         | q2 :: _ => q2 = '"' || q2 = Char.ofNat 39
         | [] => false)
    | [] => false
  else false

/-- Whether the rel="service-desc" pattern occurs anywhere in the list. -/
def hasRelServiceDesc : List Char → Bool
  | [] => false
  | c :: rest => relServiceDescAt (c :: rest) || hasRelServiceDesc rest

/-- The first match of the link-tag regex: a "<link" opening whose run of
non-">" characters contains rel="service-desc" and is closed by ">"; returns
the whole matched tag. -/
def linkTagSearch : List Char → Option (List Char)
  | [] => none
  | c :: rest =>
    if isPrefixCI "<link".data (c :: rest) then
      let after := (c :: rest).drop 5
      let region := after.takeWhile (fun ch => ch ≠ '>')
      if after.dropWhile (fun ch => ch ≠ '>') ≠ [] ∧ hasRelServiceDesc region then
        some ("<link".data ++ region ++ ['>'])
      else linkTagSearch rest
    else linkTagSearch rest

/-- Attempt the href-capture regex at the start of the list: href= followed
by a quote, a non-empty run of non-quote characters, and a closing quote of
either kind. -/
def tryHref (cs : List Char) : Option (List Char) :=
  if isPrefixCI "href=".data cs then
    match cs.drop 5 with
    | q :: rest =>
      if q = '"' || q = Char.ofNat 39 then
        let cap := rest.takeWhile (fun ch => ch ≠ '"' ∧ ch ≠ Char.ofNat 39)
        if cap ≠ [] ∧ rest.drop cap.length ≠ [] then some cap else none
      else none
    | [] => none
  else none

/-- First href capture anywhere in the matched tag. -/
def hrefSearch : List Char → Option (List Char)
  | [] => none
  | c :: rest =>
    match tryHref (c :: rest) with
    | some cap => some cap
    | none => hrefSearch rest

/-- extractServiceDescFromHtml from evaluatePublic.ts: find the service-desc
link tag, then its href value. -/
def extractServiceDescFromHtml (html : Option String) : Option String :=
  match html with
  | none => none
  | some h =>
    if h = "" then none
    else
      match linkTagSearch h.data with
      | none => none
      | some tag => (hrefSearch tag).map String.mk

/-- Index of the first case-insensitive occurrence of the pattern. -/
def findCloseFrom (pat : List Char) : List Char → Option ℕ
  | [] => if pat.isEmpty then some 0 else none
  | c :: rest =>
    if isPrefixCI pat (c :: rest) then some 0
    else (findCloseFrom pat rest).map (fun i => i + 1)

/-- Fuel-driven scanner for the lazy block-strip regexes (script and style
elements): on an opening tag with a closing tag somewhere after it, the
whole block is replaced by one space and scanning resumes past the closing
tag; otherwise the character is kept.  The fuel starts at the list length
and never runs out for the non-empty tags this model is used with. -/
def stripBlocksAux (openTag closeTag : List Char) : ℕ → List Char → List Char
  | 0, cs => cs
  | _ + 1, [] => []
  | fuel + 1, c :: rest =>
    if isPrefixCI openTag (c :: rest) then
      let after := (c :: rest).drop openTag.length
      match findCloseFrom closeTag after with
      | some i => ' ' :: stripBlocksAux openTag closeTag fuel (after.drop (i + closeTag.length))
      | none => c :: stripBlocksAux openTag closeTag fuel rest
    else c :: stripBlocksAux openTag closeTag fuel rest

/-- One global lazy block-strip pass. -/
def stripBlocks (openTag closeTag : List Char) (cs : List Char) : List Char :=
  stripBlocksAux openTag closeTag cs.length cs

/-- Fuel-driven scanner for the global tag-strip regex: a < followed by at
least one non-> character and a closing > is replaced by one space.  The
fuel starts at the list length and never runs out (every step consumes at
least one character). -/
def stripTagsAux : ℕ → List Char → List Char
  | 0, cs => cs
  | _ + 1, [] => []
  | fuel + 1, c :: rest =>
    if c = '<' then
      let inner := rest.takeWhile (fun ch => ch ≠ '>')
      if inner ≠ [] ∧ rest.drop inner.length ≠ [] then
        ' ' :: stripTagsAux fuel (rest.drop (inner.length + 1))
      else c :: stripTagsAux fuel rest
    else c :: stripTagsAux fuel rest

/-- One global tag-strip pass. -/
def stripTags (cs : List Char) : List Char := stripTagsAux cs.length cs

theorem length_dropWhile_le (p : Char → Bool) (l : List Char) :
    (l.dropWhile p).length ≤ l.length := by
  induction l with
  | nil => simp
  | cons c rest ih =>
    by_cases h : p c <;> simp [List.dropWhile_cons, h] <;> omega

/-- Fuel-driven scanner for the whitespace-collapse regex: every maximal
run of whitespace becomes one space (the fuel starts at the list length and
never runs out). -/
def collapseWsAux : ℕ → List Char → List Char
  | 0, cs => cs
  | _ + 1, [] => []
  | fuel + 1, c :: rest =>
    if isJsSpace c then
      ' ' :: collapseWsAux fuel (rest.dropWhile isJsSpace)
    else c :: collapseWsAux fuel rest

/-- One whitespace-collapse pass. -/
def collapseWs (cs : List Char) : List Char := collapseWsAux cs.length cs

/-- Trim on a character list (both ends, JS whitespace). -/
def trimChars (cs : List Char) : List Char :=
  ((cs.dropWhile isJsSpace).reverse.dropWhile isJsSpace).reverse

/-- extractMeaningfulText from evaluatePublic.ts: strip script and style
blocks, strip remaining tags, collapse whitespace, trim. -/
def extractMeaningfulText (html : Option String) : String :=
  match html with
  | none => ""
  | some h =>
    if h = "" then ""
    else
      String.mk (trimChars (collapseWs (stripTags
        (stripBlocks "<style".data "</style>".data
          (stripBlocks "<script".data "</script>".data h.data)))))

/-- The protocol, host and hostname a WHATWG URL parse exposes (the fields
normalizeOrigin reads). -/
structure EvUrlParts where
  protocol : String
  host : String
  hostname : String
deriving DecidableEq, Repr

/-- The external world of the evaluator: each call to fetchOnce is one
network exchange, numbered by a tick so that repeated fetches of one URL can
differ over time; net receives the tick, URL, method and optional body and
returns the safeFetch outcome (an error is a thrown fetch failure).
parseJson is JSON.parse (none = throws); urlParts is the URL constructor
(none = throws); resolveUrl is two-argument URL resolution (modelled total);
isUrlString is the zod string().url() validation. -/
structure EvEnv where
  net : ℕ → String → String → Option String → Except String FetchResult
  parseJson : String → Option Json
  urlParts : String → Option EvUrlParts
  resolveUrl : String → String → String
  isUrlString : String → Bool

/-- EvidenceRecord, from EvidenceRecordSchema (fetchedAt omitted: wall-clock
only).  redirectChain is undefined when the chain was empty. -/
structure EvidenceRecord where
  url : String
  method : String
  status : ℤ
  headers : List (String × String)
  contentType : Option String
  contentLength : Option (Option ℚ)
  sha256 : Option String
  redirectChain : Option (List RedirectHop)
  error : Option String
deriving DecidableEq, Repr

/-- The single evidence entry recordEvidence pushes for a fetch result. -/
def evidenceOf (result : FetchResult) (method : String) (error : Option String) :
    EvidenceRecord :=
  { url := result.url
    method := method
    status := result.status
    headers := result.headers
    contentType := result.contentType
    contentLength := result.contentLength
    sha256 := result.sha256
    redirectChain := if result.redirectChain.length ≠ 0 then some result.redirectChain else none
    error := error }

/-- recordEvidence from evaluatePublic.ts: append one record. -/
def recordEvidence (evidence : List EvidenceRecord) (result : FetchResult)
    (method : String := "GET") (error : Option String := none) : List EvidenceRecord :=
  evidence ++ [evidenceOf result method error]

/-- isJsonLike from evaluatePublic.ts. -/
def isJsonLike (contentType : Option String) : Bool :=
  match contentType with
  | none => false
  | some ct => jsIncludes ct "json" || jsIncludes ct "+json"

/-- isYamlLike from evaluatePublic.ts. -/
def isYamlLike (contentType : Option String) : Bool :=
  match contentType with
  | none => false
  | some ct => jsIncludes ct "yaml" || jsIncludes ct "yml"

/-- isSuccessStatus from evaluatePublic.ts: present with a 2xx status. -/
def isSuccessStatus (result : Option FetchResult) : Bool :=
  match result with
  | some r => decide (200 ≤ r.status) && decide (r.status < 300)
  | none => false

/-- isSuccessJson from evaluatePublic.ts. -/
def isSuccessJson (result : Option FetchResult) : Bool :=
  match result with
  | some r => isSuccessStatus (some r) && isJsonLike r.contentType
  | none => false

/-- summarizeFetchError from evaluatePublic.ts. -/
def summarizeFetchError (message : String) : String :=
  let trimmed := jsTrim message
  if trimmed = "" then "Fetch failed"
  else if jsIncludes trimmed "Response too large" then "Response exceeded 2 MB limit"
  else if jsIncludes trimmed "DNS resolution failed" then "DNS resolution failed"
  else if jsIncludes trimmed "Blocked hostname" then "Blocked hostname"
  else if jsIncludes trimmed "Blocked IP address" then "Blocked IP address"
  else if jsIncludes trimmed "Only http/https URLs are allowed" then
    "Only http/https URLs are allowed"
  else if jsIncludes trimmed "Too many redirects" then "Too many redirects"
  else trimmed

/-- parseJsonBody from evaluatePublic.ts: undefined or empty body, a parse
throw, or a non-object parse all yield null. -/
def parseJsonBody (env : EvEnv) (result : Option FetchResult) : Option Json :=
  match result with
  | none => none
  | some r =>
    match r.bodyText with
    | none => none
    | some s =>
      if s = "" then none
      else
        match env.parseJson s with
        | none => none
        | some parsed => if jsObjOrArr parsed then some parsed else none

/-- coerceOrigin from evaluatePublic.ts. -/
def coerceOrigin (raw : String) : String :=
  let trimmed := jsTrim raw
  if jsStartsWith trimmed "http://" || jsStartsWith trimmed "https://" then trimmed
  else "https://" ++ trimmed

/-- normalizeOrigin from evaluatePublic.ts: scheme://host plus the
lower-cased hostname; none when the URL constructor throws. -/
def normalizeOrigin (env : EvEnv) (raw : String) : Option (String × String) :=
  match env.urlParts (coerceOrigin raw) with
  | none => none
  | some u => some (u.protocol ++ "//" ++ u.host, jsToLower u.hostname)

/-- uniqueUrls from evaluatePublic.ts: drop undefined (and other falsy)
entries, then deduplicate preserving first occurrences (Set order). -/
def dedupAux (seen : List String) : List String → List String
  | [] => []
  | x :: rest =>
    if seen.contains x then dedupAux seen rest
    else x :: dedupAux (x :: seen) rest

/-- uniqueUrls from evaluatePublic.ts. -/
def uniqueUrls (values : List (Option String)) : List String :=
  dedupAux [] ((values.filterMap id).filter (fun s => s ≠ ""))

/-- fetchOnce from evaluatePublic.ts: one network call, consuming one tick
(the added user-agent and accept headers carry no logic in the model). -/
def fetchOnce (env : EvEnv) (tick : ℕ) (url : String) (method : String := "GET")
    (body : Option String := none) : Except String FetchResult :=
  env.net tick url method body

/-- RepeatFetchResult from evaluatePublic.ts. -/
structure RepeatFetchResult where
  url : String
  results : List FetchResult
  errors : List (Option String)
  stable : Bool
  ok : Bool
  contentTypeOk : Bool
deriving DecidableEq, Repr

/-- The synthetic status-0 result fetchRepeated records for a throwing
fetch. -/
def syntheticResult (url : String) : FetchResult :=
  { url := url, status := 0, headers := [] }

/-- The loop of fetchRepeated: each iteration either keeps the fetched
result with no error, or the synthetic result with the thrown message. -/
def fetchRepeatedAux (env : EvEnv) (url : String) :
    ℕ → ℕ → List FetchResult × List (Option String) × ℕ
  | 0, tick => ([], [], tick)
  | n + 1, tick =>
    match fetchOnce env tick url with
    | .ok r =>
      let rest := fetchRepeatedAux env url n (tick + 1)
      (r :: rest.1, none :: rest.2.1, rest.2.2)
    | .error e =>
      let rest := fetchRepeatedAux env url n (tick + 1)
      (syntheticResult url :: rest.1, some e :: rest.2.1, rest.2.2)

/-- fetchRepeated from evaluatePublic.ts: never throws; derives ok, stable
and contentTypeOk from the collected results exactly as the source does
(all comparisons against the first result). -/
def fetchRepeated (env : EvEnv) (url : String) (times tick : ℕ) :
    RepeatFetchResult × ℕ :=
  let out := fetchRepeatedAux env url times tick
  let results := out.1
  let errors := out.2.1
  let status := results.head?.map (fun r => r.status)
  let type := results.head?.bind (fun r => r.contentType)
  let sha := results.head?.bind (fun r => r.sha256)
  let ok := results.all (fun r => decide (200 ≤ r.status) && decide (r.status < 300))
  let stable := results.all (fun r =>
    decide (some r.status = status) && decide (r.sha256 = sha))
  let contentTypeOk := ok && (isJsonLike type || isYamlLike type ||
    (match type with
     | some t => decide (t ≠ "") && jsIncludes t "text/"
     | none => false))
  ({ url := url, results := results, errors := errors, stable := stable,
     ok := ok, contentTypeOk := contentTypeOk }, out.2.2)

/-- The OpenAPI fallback probe paths of evaluatePublic.ts
(DISCOVERY_ENDPOINTS). -/
def DISCOVERY_ENDPOINTS : List String :=
  ["/.well-known/openapi.yaml", "/openapi.yaml", "/swagger.json"]

/-- The docs probe paths of evaluatePublic.ts (DOCS_ENDPOINTS). -/
def DOCS_ENDPOINTS : List String := ["/docs", "/documentation", "/developers"]

/-- DiscoveryState from evaluatePublic.ts. -/
structure DiscoveryState where
  origin : String
  domain : String
  airRootUrl : Option String := none
  airWellKnownUrl : Option String := none
  airRoot : Option FetchResult := none
  airWellKnown : Option FetchResult := none
  airUrl : Option String := none
  openApiRootUrl : Option String := none
  openApiWellKnownUrl : Option String := none
  openApiRoot : Option FetchResult := none
  openApiWellKnown : Option FetchResult := none
  openApiUrl : Option String := none
  aiPluginUrl : Option String := none
  aiPlugin : Option FetchResult := none
  serviceDescUrl : Option String := none
  llmsUrl : Option String := none
  robotsUrl : Option String := none
  docsUrl : Option String := none
  entrypoints : List String := []
  evidence : List EvidenceRecord := []
  notes : List String := []

/-- The air.json root probe block of discover. -/
def discoverAirRoot (env : EvEnv) (st : DiscoveryState) (tick : ℕ) :
    DiscoveryState × ℕ :=
  let airRootUrl := st.origin ++ "/air.json"
  match fetchOnce env tick airRootUrl with
  | .ok r =>
    let st1 := { st with evidence := recordEvidence st.evidence r, airRoot := some r }
    let st2 :=
      if isSuccessJson (some r) then
        let stx := { st1 with
          airRootUrl := some airRootUrl
          entrypoints := st1.entrypoints ++ [airRootUrl] }
        if stx.airUrl = none then { stx with airUrl := some airRootUrl } else stx
      else st1
    (st2, tick + 1)
  | .error e =>
    ({ st with notes := st.notes ++ ["air.json fetch failed: " ++ e] }, tick + 1)

/-- The well-known air.json probe block of discover: on a successful JSON
response the well-known URL overwrites airUrl unconditionally (well-known
preferred). -/
def discoverAirWellKnown (env : EvEnv) (st : DiscoveryState) (tick : ℕ) :
    DiscoveryState × ℕ :=
  let airWellKnownUrl := st.origin ++ "/.well-known/air.json"
  match fetchOnce env tick airWellKnownUrl with
  | .ok r =>
    let st1 := { st with evidence := recordEvidence st.evidence r, airWellKnown := some r }
    let st2 :=
      if isSuccessJson (some r) then
        { st1 with airWellKnownUrl := some airWellKnownUrl,
                   entrypoints := st1.entrypoints ++ [airWellKnownUrl],
                   airUrl := some airWellKnownUrl }
      else st1
    (st2, tick + 1)
  | .error e =>
    ({ st with notes := st.notes ++ ["air.json (well-known) fetch failed: " ++ e] },
      tick + 1)

/-- The manifest docs-field block of discover (no network call). -/
def discoverManifestDocs (env : EvEnv) (st : DiscoveryState) : DiscoveryState :=
  let manifestSource :=
    match parseJsonBody env st.airRoot with
    | some j => some j
    | none => parseJsonBody env st.airWellKnown
  match manifestSource with
  | none => st
  | some m =>
    let docs :=
      match getNestedString (some m) ["docs"] with
      | some d => some d
      | none =>
        match getNestedString (some m) ["documentation"] with
        | some d => some d
        | none => getNestedString (some m) ["llm_entrypoints", "docs_md"]
    match docs with
    | none => st
    | some d => { st with docsUrl := some (env.resolveUrl d st.origin) }

/-- The ai-plugin.json probe block of discover. -/
def discoverAiPlugin (env : EvEnv) (st : DiscoveryState) (tick : ℕ) :
    DiscoveryState × ℕ :=
  let aiPluginUrl := st.origin ++ "/.well-known/ai-plugin.json"
  match fetchOnce env tick aiPluginUrl with
  | .ok r =>
    let st1 := { st with evidence := recordEvidence st.evidence r, aiPlugin := some r }
    let st2 :=
      if isSuccessJson (some r) then { st1 with aiPluginUrl := some aiPluginUrl } else st1
    (st2, tick + 1)
  | .error e =>
    ({ st with notes := st.notes ++ ["ai-plugin.json fetch failed: " ++ e] }, tick + 1)

/-- The root-page probe block of discover: scan the Link header and the HTML
body for a service-desc link. -/
def discoverRoot (env : EvEnv) (st : DiscoveryState) (tick : ℕ) :
    DiscoveryState × ℕ :=
  match fetchOnce env tick (st.origin ++ "/") with
  | .ok r =>
    let st1 := { st with evidence := recordEvidence st.evidence r }
    let headerLink := extractServiceDescFromLink (r.headers.lookup "link")
    let htmlLink := extractServiceDescFromHtml r.bodyText
    let serviceDesc :=
      match headerLink with
      | some h => some h
      | none => htmlLink
    let st2 :=
      match serviceDesc with
      | none => st1
      | some sd =>
        let resolved := env.resolveUrl sd st.origin
        { st1 with serviceDescUrl := some resolved,
                   entrypoints := st1.entrypoints ++ [resolved] }
    (st2, tick + 1)
  | .error e =>
    ({ st with notes := st.notes ++ ["Root fetch failed: " ++ e] }, tick + 1)

/-- The openapi.json root probe block of discover. -/
def discoverOpenApiRoot (env : EvEnv) (st : DiscoveryState) (tick : ℕ) :
    DiscoveryState × ℕ :=
  let openApiRootUrl := st.origin ++ "/openapi.json"
  match fetchOnce env tick openApiRootUrl with
  | .ok r =>
    let st1 := { st with evidence := recordEvidence st.evidence r, openApiRoot := some r }
    let st2 :=
      if isSuccessJson (some r) then
        let stx := { st1 with
          openApiRootUrl := some openApiRootUrl
          entrypoints := st1.entrypoints ++ [openApiRootUrl] }
        if stx.openApiUrl = none then { stx with openApiUrl := some openApiRootUrl } else stx
      else st1
    (st2, tick + 1)
  | .error e =>
    ({ st with notes := st.notes ++ ["openapi.json fetch failed: " ++ e] }, tick + 1)

/-- The well-known openapi.json probe block of discover. -/
def discoverOpenApiWellKnown (env : EvEnv) (st : DiscoveryState) (tick : ℕ) :
    DiscoveryState × ℕ :=
  let openApiWellKnownUrl := st.origin ++ "/.well-known/openapi.json"
  match fetchOnce env tick openApiWellKnownUrl with
  | .ok r =>
    let st1 := { st with
      evidence := recordEvidence st.evidence r
      openApiWellKnown := some r }
    let st2 :=
      if isSuccessJson (some r) then
        let stx := { st1 with
          openApiWellKnownUrl := some openApiWellKnownUrl
          entrypoints := st1.entrypoints ++ [openApiWellKnownUrl] }
        if stx.openApiUrl = none then
          { stx with openApiUrl := some openApiWellKnownUrl }
        else stx
      else st1
    (st2, tick + 1)
  | .error e =>
    ({ st with notes := st.notes ++ ["openapi.json (well-known) fetch failed: " ++ e] },
      tick + 1)

/-- The DISCOVERY_ENDPOINTS fallback loop of discover: skip the two JSON
URLs probed above, stop once an OpenAPI URL is known, accept a 2xx response
with a JSON- or YAML-like content type. -/
def openApiLoop (env : EvEnv) : List String → DiscoveryState → ℕ → DiscoveryState × ℕ
  | [], st, tick => (st, tick)
  | path :: rest, st, tick =>
    let candidate := st.origin ++ path
    if candidate = st.origin ++ "/openapi.json" ∨
        candidate = st.origin ++ "/.well-known/openapi.json" then
      openApiLoop env rest st tick
    else if st.openApiUrl ≠ none then (st, tick)
    else
      match fetchOnce env tick candidate with
      | .ok r =>
        let st1 := { st with evidence := recordEvidence st.evidence r }
        let st2 :=
          if decide (200 ≤ r.status) && decide (r.status < 300) &&
              (isJsonLike r.contentType || isYamlLike r.contentType) then
            { st1 with openApiUrl := some candidate,
                       entrypoints := st1.entrypoints ++ [candidate] }
          else st1
        openApiLoop env rest st2 (tick + 1)
      | .error e =>
        openApiLoop env rest
          { st with notes := st.notes ++ ["OpenAPI probe failed: " ++ e] } (tick + 1)

/-- The llms.txt probe block of discover. -/
def discoverLlms (env : EvEnv) (st : DiscoveryState) (tick : ℕ) :
    DiscoveryState × ℕ :=
  let llmsUrl := st.origin ++ "/llms.txt"
  match fetchOnce env tick llmsUrl with
  | .ok r =>
    let st1 := { st with evidence := recordEvidence st.evidence r }
    let st2 :=
      if decide (200 ≤ r.status) && decide (r.status < 300) then
        { st1 with llmsUrl := some llmsUrl }
      else st1
    (st2, tick + 1)
  | .error e =>
    ({ st with notes := st.notes ++ ["llms.txt fetch failed: " ++ e] }, tick + 1)

/-- The robots.txt probe block of discover. -/
def discoverRobots (env : EvEnv) (st : DiscoveryState) (tick : ℕ) :
    DiscoveryState × ℕ :=
  let robotsUrl := st.origin ++ "/robots.txt"
  match fetchOnce env tick robotsUrl with
  | .ok r =>
    let st1 := { st with evidence := recordEvidence st.evidence r }
    let st2 :=
      if decide (200 ≤ r.status) && decide (r.status < 300) then
        { st1 with robotsUrl := some robotsUrl }
      else st1
    (st2, tick + 1)
  | .error e =>
    ({ st with notes := st.notes ++ ["robots.txt fetch failed: " ++ e] }, tick + 1)

/-- The DOCS_ENDPOINTS loop of discover: first 2xx candidate wins. -/
def docsLoop (env : EvEnv) : List String → DiscoveryState → ℕ → DiscoveryState × ℕ
  | [], st, tick => (st, tick)
  | path :: rest, st, tick =>
    let candidate := st.origin ++ path
    match fetchOnce env tick candidate with
    | .ok r =>
      let st1 := { st with evidence := recordEvidence st.evidence r }
      if decide (200 ≤ r.status) && decide (r.status < 300) then
        ({ st1 with docsUrl := some candidate }, tick + 1)
      else docsLoop env rest st1 (tick + 1)
    | .error e =>
      docsLoop env rest
        { st with notes := st.notes ++ ["Docs probe failed: " ++ e] } (tick + 1)

/-- The probe pipeline of discover after the two air.json probes, in source
order. -/
def discoverTail (env : EvEnv) (st : DiscoveryState) (tick : ℕ) :
    DiscoveryState × ℕ :=
  let st3 := discoverManifestDocs env st
  let s4 := discoverAiPlugin env st3 tick
  let s5 := discoverRoot env s4.1 s4.2
  let s6 := discoverOpenApiRoot env s5.1 s5.2
  let s7 := discoverOpenApiWellKnown env s6.1 s6.2
  let s8 := openApiLoop env DISCOVERY_ENDPOINTS s7.1 s7.2
  let s9 := discoverLlms env s8.1 s8.2
  let s10 := discoverRobots env s9.1 s9.2
  if s10.1.docsUrl = none then docsLoop env DOCS_ENDPOINTS s10.1 s10.2 else s10

/-- discover from evaluatePublic.ts: the probe pipeline in source order,
threading the evidence list and the network tick. -/
def discover (env : EvEnv) (origin : String) (tick : ℕ) :
    Except String (DiscoveryState × ℕ) :=
  match normalizeOrigin env origin with
  | none => .error "Invalid URL"
  | some (_, domain) =>
    let st0 : DiscoveryState := { origin := origin, domain := domain }
    let s1 := discoverAirRoot env st0 tick
    let s2 := discoverAirWellKnown env s1.1 s1.2
    .ok (discoverTail env s2.1 s2.2)

/-- The primary entrypoint selection of evaluatePublic.ts: the air.json
ROOT URL first, then the well-known air.json, service-desc, openapi root,
openapi well-known, and the fallback OpenAPI URL. -/
def primaryEntrypointOf (d : DiscoveryState) : Option String :=
  d.airRootUrl <|> d.airWellKnownUrl <|> d.serviceDescUrl <|>
    d.openApiRootUrl <|> d.openApiWellKnownUrl <|> d.openApiUrl

/-- errors.find(Boolean): the first non-empty recorded error message. -/
def findTruthyError : List (Option String) → Option String
  | [] => none
  | some e :: rest => if e ≠ "" then some e else findTruthyError rest
  | none :: rest => findTruthyError rest

/-- The evidence records the repeat-fetch recording loop appends: one per
result, with the error of the same index. -/
def repeatEvidence : List FetchResult → List (Option String) → List EvidenceRecord
  | [], _ => []
  | r :: rs, [] => evidenceOf r "GET" none :: repeatEvidence rs []
  | r :: rs, e :: es => evidenceOf r "GET" e :: repeatEvidence rs es

/-- The docs text of evaluatePublic.ts: the markup-stripped text of the
first sample body when the docs sample is all-2xx, else empty. -/
def docsTextOf (docsRepeat : Option RepeatFetchResult) : String :=
  match docsRepeat with
  | none => ""
  | some rep =>
    if rep.ok then extractMeaningfulText (rep.results.head?.bind (fun r => r.bodyText))
    else ""

/-- Array.prototype.join with a separator. -/
def joinWith (sep : String) : List String → String
  | [] => ""
  | [x] => x
  | x :: rest => x ++ sep ++ joinWith sep rest

/-- The D1 check of evaluatePublic.ts. -/
def d1Check (primaryEntrypoint : Option String) (entrypoints : List String) :
    CheckResult :=
  { id := "D1"
    status := if primaryEntrypoint.isSome then .pass else .fail
    severity := .high
    summary :=
      if primaryEntrypoint.isSome then "Found at least one machine-readable entrypoint."
      else "No machine-readable entrypoints discovered."
    evidence := if entrypoints.length ≠ 0 then entrypoints else [] }

/-- The D2 check of evaluatePublic.ts. -/
def d2Check (entrypointRepeat : Option RepeatFetchResult)
    (primaryEntrypoint : Option String) : CheckResult :=
  let entrypointStable := (entrypointRepeat.map (fun rep => rep.stable)).getD false
  let entrypointOk := (entrypointRepeat.map (fun rep => rep.contentTypeOk)).getD false
  let entrypointStatusOk := (entrypointRepeat.map (fun rep => rep.ok)).getD false
  let entrypointError :=
    match entrypointRepeat with
    | some rep => findTruthyError rep.errors
    | none => none
  let d2Status : CheckStatus :=
    match entrypointRepeat with
    | some _ =>
      if entrypointStatusOk then
        if entrypointStable && entrypointOk then .pass else .warn
      else .fail
    | none => .fail
  { id := "D2"
    status := d2Status
    severity := .high
    summary :=
      match entrypointRepeat with
      | none => "Entrypoint unreachable or missing."
      | some _ =>
        match entrypointError with
        | some err => "Entrypoint fetch failed: " ++ summarizeFetchError err ++ "."
        | none =>
          if entrypointStatusOk then
            if entrypointStable then "Entrypoint reachable with stable response."
            else "Entrypoint reachable but unstable across requests."
          else "Entrypoint responded with a non-success status."
    evidence :=
      match primaryEntrypoint with
      | some u => [u]
      | none => [] }

/-- The OpenAPI version string of evaluatePublic.ts: the openapi field when
it is a string, else empty. -/
def openApiVersionOf (openApiData : Option Json) : String :=
  match openApiData with
  | some j =>
    match jsGetField j "openapi" with
    | some (.str s) => s
    | _ => ""
  | none => ""

/-- The fixed example-endpoint list of evaluatePublic.ts. -/
def requiredExamplePaths : List String :=
  [ "/api/public/v1/status/summary", "/api/public/v1/incidents",
    "/api/public/v1/providers", "/api/public/v1/casual/status" ]

/-- The content-entry scan of the example walk: a JSON-typed entry whose
value is an object carrying a truthy example or a non-empty examples
collection. -/
def entriesHasExample : List (String × Json) → Bool
  | [] => false
  | (contentType, value) :: rest =>
    if ¬ jsIncludes contentType "json" || ¬ jsTruthyJ value || ¬ jsObjOrArr value then
      entriesHasExample rest
    else
      let exampleValue := jsGetField value "example"
      let examplesValue := jsGetField value "examples"
      if jsTruthyOpt exampleValue ||
          (jsTruthyOpt examplesValue && decide (keysCount examplesValue > 0)) then true
      else entriesHasExample rest

/-- Whether one required path carries a response example, following the
paths → get → responses → 200 → content walk of evaluatePublic.ts. -/
def hasExampleAt (paths : Option Json) (path : String) : Bool :=
  let pathItem := jsProp paths path
  let getOp := jsProp pathItem "get"
  let responses := jsProp getOp "responses"
  let okResponse := jsProp responses "200"
  let content := jsProp okResponse "content"
  match content with
  | some c => if jsTruthyJ c then entriesHasExample (jsEntries c) else false
  | none => false

/-- The missing-example list of evaluatePublic.ts: all required paths when
the description did not parse, else those lacking an example. -/
def missingExamplesOf (openApiData : Option Json) : List String :=
  match openApiData with
  | some j => requiredExamplePaths.filter (fun path => ¬ hasExampleAt (jsGetField j "paths") path)
  | none => requiredExamplePaths

/-- The C2 check of evaluatePublic.ts. -/
def c2CheckOf (origin : String) (openApiRootOk openApiWellKnownOk : Bool)
    (openApiData : Option Json) : CheckResult :=
  let openApiVersionOk := jsStartsWith (openApiVersionOf openApiData) "3."
  let missingExamples := missingExamplesOf openApiData
  { id := "C2"
    status :=
      if openApiRootOk && openApiWellKnownOk && openApiVersionOk &&
          decide (missingExamples.length = 0) then .pass else .fail
    severity := .high
    summary :=
      if openApiRootOk then
        if openApiWellKnownOk then
          if openApiVersionOk then
            if missingExamples.length = 0 then
              "OpenAPI is valid and includes required examples."
            else "OpenAPI missing examples for: " ++ joinWith ", " missingExamples ++ "."
          else "OpenAPI is present but not version 3.x."
        else "OpenAPI root found but /.well-known/openapi.json is missing."
      else "OpenAPI root endpoint missing or invalid."
    evidence := [origin ++ "/openapi.json", origin ++ "/.well-known/openapi.json"] }

/-- The C3 check of evaluatePublic.ts. -/
def c3CheckOf (mcpUrl : String) (mcpGetOk mcpInitOk : Bool) : CheckResult :=
  { id := "C3"
    status := if mcpGetOk && mcpInitOk then .pass else .fail
    severity := .high
    summary :=
      if mcpGetOk then
        if mcpInitOk then "MCP endpoint responds to GET and initialize."
        else "MCP initialize did not return a valid JSON-RPC response."
      else "MCP endpoint did not return explainer text."
    evidence := [mcpUrl] }

/-- The L1 check of evaluatePublic.ts: fail when there is no docs sample or
the sample is not all-2xx; else pass or warn by the 200-character docs-text
threshold.  Stability plays no part. -/
def l1Check (docsRepeat : Option RepeatFetchResult) (docsText : String)
    (docsUrl : Option String) : CheckResult :=
  let docsError :=
    match docsRepeat with
    | some rep => findTruthyError rep.errors
    | none => none
  let l1Status : CheckStatus :=
    match docsRepeat with
    | none => .fail
    | some rep =>
      if ¬ rep.ok then .fail
      else if docsText.length ≥ 200 then .pass else .warn
  { id := "L1"
    status := l1Status
    severity := .high
    summary :=
      match docsRepeat with
      | none => "No docs entrypoint discovered."
      | some _ =>
        match docsError with
        | some err => "Docs fetch failed: " ++ summarizeFetchError err ++ "."
        | none =>
          if l1Status = .pass then "Docs entrypoint contains meaningful text."
          else "Docs entrypoint found but content appears thin."
    evidence :=
      match docsUrl with
      | some u => [u]
      | none => [] }

/-- The air.json required-field audit of evaluatePublic.ts, in source
order. -/
def airMissingFieldsOf (airManifest : Option Json) : List String :=
  (if getNestedString airManifest ["canonical_base_url"] = none then
    ["canonical_base_url"] else []) ++
  (if getNestedString airManifest ["contact", "email"] = none then
    ["contact.email"] else []) ++
  (if getNestedString airManifest ["legal", "terms_url"] = none then
    ["legal.terms_url"] else []) ++
  (if getNestedString airManifest ["legal", "privacy_url"] = none then
    ["legal.privacy_url"] else []) ++
  (if getNestedString airManifest ["verification", "discovery_audit_json"] = none then
    ["verification.discovery_audit_json"] else []) ++
  (if getNestedString airManifest ["verification", "discovery_audit_html"] = none then
    ["verification.discovery_audit_html"] else []) ++
  (if getNestedString airManifest ["callable_surface", "openapi"] = none then
    ["callable_surface.openapi"] else []) ++
  (if getNestedString airManifest ["callable_surface", "mcp_endpoint"] = none then
    ["callable_surface.mcp_endpoint"] else []) ++
  (if getNestedString airManifest ["llm_entrypoints", "llms_txt"] = none then
    ["llm_entrypoints.llms_txt"] else []) ++
  (if getNestedString airManifest ["llm_entrypoints", "llms_full_txt"] = none then
    ["llm_entrypoints.llms_full_txt"] else [])

/-- The T1 check of evaluatePublic.ts. -/
def t1CheckOf (origin : String) (airRootOk airWellKnownOk : Bool)
    (airMissingFields : List String) : CheckResult :=
  { id := "T1"
    status :=
      if airRootOk && airWellKnownOk && decide (airMissingFields.length = 0) then .pass
      else .fail
    severity := .high
    summary :=
      if airRootOk && airWellKnownOk then
        if airMissingFields.length ≠ 0 then
          "air.json missing required fields: " ++ joinWith ", " airMissingFields ++ "."
        else "air.json is present with required fields."
      else "air.json endpoints missing or invalid."
    evidence := [origin ++ "/air.json", origin ++ "/.well-known/air.json"] }

/-- The T2 check of evaluatePublic.ts. -/
def t2CheckOf (origin : String) (aiPluginOk : Bool) (aiPluginContact : Option String)
    (aiPluginLegalOk : Bool) : CheckResult :=
  { id := "T2"
    status :=
      if aiPluginOk && aiPluginContact.isSome && aiPluginLegalOk then .pass else .fail
    severity := .high
    summary :=
      if aiPluginOk then
        if aiPluginContact.isSome && aiPluginLegalOk then
          "AI plugin metadata includes legal and contact fields."
        else "AI plugin metadata missing legal or contact fields."
      else "AI plugin manifest missing or invalid."
    evidence := [origin ++ "/.well-known/ai-plugin.json"] }

/-- The R3 check of evaluatePublic.ts. -/
def r3CheckOf (entrypointRepeat docsRepeat : Option RepeatFetchResult)
    (primaryEntrypoint docsUrl : Option String) : CheckResult :=
  let entrypointConsistent :=
    match entrypointRepeat with
    | some rep => rep.ok && rep.stable
    | none => true
  let docsConsistent :=
    match docsRepeat with
    | some rep => rep.ok && rep.stable
    | none => true
  let r3Stable :=
    entrypointConsistent && docsConsistent &&
      (primaryEntrypoint.isSome || docsUrl.isSome)
  { id := "R3"
    status := if r3Stable then .pass else .fail
    severity := .high
    summary :=
      if r3Stable then "Critical surfaces are consistent across repeated requests."
      else "Critical surfaces show variance across repeated requests."
    evidence := [primaryEntrypoint, docsUrl].filterMap id }

/-- The JSON-RPC initialize payload evaluatePublic.ts posts to the MCP
endpoint. -/
def INIT_PAYLOAD : String :=
  "\x7b\"jsonrpc\":\"2.0\",\"id\":1,\"method\":\"initialize\",\"params\":\x7b\x7d\x7d"

/-- The MCP GET verdict: 2xx with a non-blank body. -/
def mcpGetOkOf (mcpGetResult : Option FetchResult) : Bool :=
  isSuccessStatus mcpGetResult &&
    (match mcpGetResult with
     | some r =>
       match r.bodyText with
       | some b => decide (jsTrim b ≠ "")
       | none => false
     | none => false)

/-- The MCP initialize verdict: 2xx, a JSON-RPC 2.0 envelope, an
object-typed result field and a protocolVersion string inside it. -/
def mcpInitOkOf (env : EvEnv) (mcpInitResult : Option FetchResult) : Bool :=
  let mcpInitData := parseJsonBody env mcpInitResult
  isSuccessStatus mcpInitResult &&
    (match mcpInitData with
     | some j =>
       (match jsGetField j "jsonrpc" with
        | some (.str s) => decide (s = "2.0")
        | _ => false) &&
       (match jsGetField j "result" with
        | some v => jsTypeofObject v
        | none => false) &&
       decide ((getNestedString (some j) ["result", "protocolVersion"]).isSome)
     | none => false)

/-- The fields of EvaluationResult the model carries (runId, mode, artifact
URLs, engine stamps and timestamps are bookkeeping with no logic and are
omitted). -/
structure EvaluationResultM where
  domain : String
  profile : EvaluationProfile
  origin : String
  status : String
  score : ℤ
  grade : String
  pillarScores : Pillar → ℤ
  checks : List CheckResult
  evidenceIndexEntrypoints : List String
  evidenceIndexCallable : List String
  evidenceIndexDocs : List String

/-- evaluatePublic from evaluatePublic.ts: validate and normalize the
origin, discover, sample the primary and docs entrypoints three times each,
probe the MCP endpoint, build the eight checks, aggregate the scores, and
return the result with the accumulated evidence records. -/
def evaluatePublic (env : EvEnv) (rawOrigin : String)
    (rawProfile : Option EvaluationProfile) :
    Except String (EvaluationResultM × List EvidenceRecord) :=
  let coerced := coerceOrigin rawOrigin
  if ¬ env.isUrlString coerced then .error "Invalid evaluation input"
  else
    match normalizeOrigin env coerced with
    | none => .error "Invalid URL"
    | some (origin, domain) =>
      match discover env origin 0 with
      | .error e => .error e
      | .ok (discovery, t0) =>
        let primaryEntrypoint := primaryEntrypointOf discovery
        let docsUrl := discovery.docsUrl
        let entry :=
          match primaryEntrypoint with
          | some u =>
            let fr := fetchRepeated env u 3 t0
            (some fr.1, discovery.evidence ++ repeatEvidence fr.1.results fr.1.errors, fr.2)
          | none => (none, discovery.evidence, t0)
        let entrypointRepeat := entry.1
        let docsPart :=
          match docsUrl with
          | some u =>
            let fr := fetchRepeated env u 3 entry.2.2
            (some fr.1, entry.2.1 ++ repeatEvidence fr.1.results fr.1.errors, fr.2)
          | none => (none, entry.2.1, entry.2.2)
        let docsRepeat := docsPart.1
        let docsText := docsTextOf docsRepeat
        let airRootOk := isSuccessJson discovery.airRoot
        let airWellKnownOk := isSuccessJson discovery.airWellKnown
        let airManifest :=
          match parseJsonBody env discovery.airRoot with
          | some j => some j
          | none => parseJsonBody env discovery.airWellKnown
        let airMissingFields := airMissingFieldsOf airManifest
        let aiPluginOk := isSuccessJson discovery.aiPlugin
        let aiPluginData := parseJsonBody env discovery.aiPlugin
        let aiPluginContact := getNestedString aiPluginData ["contact_email"]
        let aiPluginLegal := getNestedString aiPluginData ["legal_info_url"]
        let aiPluginLegalOk :=
          match aiPluginLegal with
          | some legal => jsIncludes (jsToLower legal) "/terms"
          | none => false
        let openApiRootOk := isSuccessJson discovery.openApiRoot
        let openApiWellKnownOk := isSuccessJson discovery.openApiWellKnown
        let openApiData := parseJsonBody env discovery.openApiRoot
        let mcpUrl := origin ++ "/mcp"
        let mcpGetStep :=
          match fetchOnce env docsPart.2.2 mcpUrl with
          | .ok r => (some r, recordEvidence docsPart.2.1 r)
          | .error _ => (none, docsPart.2.1)
        let mcpInitStep :=
          match fetchOnce env (docsPart.2.2 + 1) mcpUrl "POST" (some INIT_PAYLOAD) with
          | .ok r => (some r, recordEvidence mcpGetStep.2 r "POST")
          | .error _ => (none, mcpGetStep.2)
        let mcpGetOk := mcpGetOkOf mcpGetStep.1
        let mcpInitOk := mcpInitOkOf env mcpInitStep.1
        let checks : List CheckResult :=
          [ d1Check primaryEntrypoint discovery.entrypoints,
            d2Check entrypointRepeat primaryEntrypoint,
            c2CheckOf origin openApiRootOk openApiWellKnownOk openApiData,
            c3CheckOf mcpUrl mcpGetOk mcpInitOk,
            l1Check docsRepeat docsText docsUrl,
            t1CheckOf origin airRootOk airWellKnownOk airMissingFields,
            t2CheckOf origin aiPluginOk aiPluginContact aiPluginLegalOk,
            r3CheckOf entrypointRepeat docsRepeat primaryEntrypoint docsUrl ]
        let profile := rawProfile.getD .auto
        let scores := aggregateScores checks profile
        let entrypoints := uniqueUrls
          [ some (origin ++ "/air.json"), some (origin ++ "/.well-known/air.json"),
            some (origin ++ "/openapi.json"), some (origin ++ "/.well-known/openapi.json"),
            discovery.serviceDescUrl ]
        let callable := uniqueUrls
          [ some (origin ++ "/openapi.json"), some (origin ++ "/.well-known/openapi.json"),
            some mcpUrl, some (origin ++ "/.well-known/ai-plugin.json") ]
        .ok ({ domain := domain, profile := profile, origin := origin,
               status := "complete", score := scores.score, grade := scores.grade,
               pillarScores := scores.pillarScores, checks := checks,
               evidenceIndexEntrypoints := entrypoints,
               evidenceIndexCallable := callable,
               evidenceIndexDocs :=
                 match docsUrl with
                 | some u => [u]
                 | none => [] },
             mcpInitStep.2)

/-- The loop of fetchRepeated produces exactly one result and one error slot
per iteration, in tick order: the fetched result with no error, or the
synthetic status-0 result with the thrown message. -/
theorem fetchRepeatedAux_spec (env : EvEnv) (url : String) :
    ∀ (times tick : ℕ),
      (fetchRepeatedAux env url times tick).1.length = times ∧
      (fetchRepeatedAux env url times tick).2.1.length = times ∧
      (fetchRepeatedAux env url times tick).2.2 = tick + times ∧
      ∀ i, i < times →
        (match fetchOnce env (tick + i) url with
         | .ok r =>
           (fetchRepeatedAux env url times tick).1.get? i = some r ∧
           (fetchRepeatedAux env url times tick).2.1.get? i = some none
         | .error e =>
           (fetchRepeatedAux env url times tick).1.get? i = some (syntheticResult url) ∧
           (fetchRepeatedAux env url times tick).2.1.get? i = some (some e)) := by
  intro times
  induction times with
  | zero => intro tick; refine ⟨rfl, rfl, rfl, ?_⟩; intro i hi; omega
  | succ n ih =>
    intro tick
    have ihn := ih (tick + 1)
    rcases h : fetchOnce env tick url with e | r <;>
      simp only [fetchRepeatedAux, h] <;>
      refine ⟨by simp [ihn.1], by simp [ihn.2.1], by rw [ihn.2.2.1]; omega, ?_⟩ <;>
      intro i hi <;>
      cases i with
      | zero => simp [h]
      | succ j =>
        have hj := ihn.2.2.2 j (by omega)
        have ht : tick + (j + 1) = tick + 1 + j := by omega
        rw [ht]
        rcases hfo : fetchOnce env (tick + 1 + j) url with e2 | r2 <;>
          rw [hfo] at hj <;> simpa using hj

/-- C10: fetchRepeated returns exactly n results and n error slots and never
throws (it is a total function of the environment): a fetch that throws at
tick i is replaced by the synthetic result with status 0, empty headers and
an empty redirect chain, with the thrown message recorded at the matching
index of the errors array; and any recorded error forces the sample's ok
flag to false. -/
theorem C10_fetchRepeated_never_throws (env : EvEnv) (url : String) (times tick : ℕ) :
    (fetchRepeated env url times tick).1.results.length = times ∧
    (fetchRepeated env url times tick).1.errors.length = times ∧
    (∀ i, i < times →
      (match fetchOnce env (tick + i) url with
       | .ok r =>
         (fetchRepeated env url times tick).1.results.get? i = some r ∧
         (fetchRepeated env url times tick).1.errors.get? i = some none
       | .error e =>
         (fetchRepeated env url times tick).1.results.get? i =
           some { url := url, status := 0, headers := [], contentType := none,
                  contentLength := none, bodyText := none, sha256 := none,
                  redirectChain := [] } ∧
         (fetchRepeated env url times tick).1.errors.get? i = some (some e))) ∧
    (∀ i e, (fetchRepeated env url times tick).1.errors.get? i = some (some e) →
      (fetchRepeated env url times tick).1.ok = false) := by
  have spec := fetchRepeatedAux_spec env url times tick
  have hres : (fetchRepeated env url times tick).1.results =
      (fetchRepeatedAux env url times tick).1 := rfl
  have herr : (fetchRepeated env url times tick).1.errors =
      (fetchRepeatedAux env url times tick).2.1 := rfl
  refine ⟨by rw [hres]; exact spec.1, by rw [herr]; exact spec.2.1, ?_, ?_⟩
  · intro i hi
    have := spec.2.2.2 i hi
    rcases hfo : fetchOnce env (tick + i) url with e | r <;> rw [hfo] at this <;>
      simpa [hres, herr, syntheticResult] using this
  · intro i e he
    rw [herr] at he
    have hlen := spec.2.1
    have hi : i < times := by
      rcases List.get?_eq_some.mp he with ⟨hlt, _⟩
      omega
    have hok : (fetchRepeated env url times tick).1.ok =
        (fetchRepeatedAux env url times tick).1.all
          (fun r => decide (200 ≤ r.status) && decide (r.status < 300)) := rfl
    have hcorr := spec.2.2.2 i hi
    rcases hfo : fetchOnce env (tick + i) url with e2 | r2 <;> rw [hfo] at hcorr
    · have hmem : syntheticResult url ∈ (fetchRepeatedAux env url times tick).1 :=
        List.get?_mem hcorr.1
      rw [hok]
      cases hb : (fetchRepeatedAux env url times tick).1.all
          (fun r => decide (200 ≤ r.status) && decide (r.status < 300)) with
      | false => rfl
      | true =>
        exfalso
        have := List.all_eq_true.mp hb _ hmem
        simp [syntheticResult] at this
    · rw [hcorr.2] at he
      simp at he

/-- C5 (amended): the L1 policy the code implements.  With a docs sample
present, L1 is fail exactly when some of the three fetches was non-2xx
(ok = false); with all fetches 2xx it is pass exactly when the docs text
reaches 200 characters and warn exactly when it falls short; without a docs
sample it is fail.  Stability plays no role: flipping the sample's stable
flag never changes the L1 status (the original claim's
"fail when unstable" is not implemented — see the counterexample). -/
theorem C5_l1_policy (docsRepeat : Option RepeatFetchResult) (docsText : String)
    (docsUrl : Option String) :
    ((l1Check docsRepeat docsText docsUrl).status = .fail ↔
      (docsRepeat = none ∨ ∃ rep, docsRepeat = some rep ∧ rep.ok = false)) ∧
    ((l1Check docsRepeat docsText docsUrl).status = .pass ↔
      ((∃ rep, docsRepeat = some rep ∧ rep.ok = true) ∧ 200 ≤ docsText.length)) ∧
    ((l1Check docsRepeat docsText docsUrl).status = .warn ↔
      ((∃ rep, docsRepeat = some rep ∧ rep.ok = true) ∧ docsText.length < 200)) ∧
    (∀ rep b, (l1Check (some { rep with stable := b }) docsText docsUrl).status =
      (l1Check (some rep) docsText docsUrl).status) := by
  refine ⟨?_, ?_, ?_, ?_⟩
  · rcases docsRepeat with _ | rep
    · simp [l1Check]
    · rcases hok : rep.ok with _ | _
      · simp [l1Check, hok]
      · by_cases hlen : 200 ≤ docsText.length <;> simp [l1Check, hok, hlen]
  · rcases docsRepeat with _ | rep
    · simp [l1Check]
    · rcases hok : rep.ok with _ | _
      · simp [l1Check, hok]
      · by_cases hlen : 200 ≤ docsText.length <;> simp [l1Check, hok, hlen]
  · rcases docsRepeat with _ | rep
    · simp [l1Check]
    · rcases hok : rep.ok with _ | _
      · simp [l1Check, hok]
      · by_cases hlen : 200 ≤ docsText.length <;> simp [l1Check, hok, hlen] <;> omega
  · intro rep b
    rcases hok : rep.ok with _ | _ <;> simp [l1Check, hok]

/-- A concrete world for the C5 counterexample: every probe fails except the
docs path, whose three sample fetches all return 200 with a long plain-text
body but a different content hash on every tick (an unstable sample). -/
def c5env : EvEnv :=
  { net := fun tick url _ _ =>
      if url = "https://docs.example/docs" then
        .ok { url := url, status := 200, headers := [],
              contentType := some "text/html",
              bodyText := some (String.mk (List.replicate 210 'a')),
              sha256 := some (Nat.repr tick), redirectChain := [] }
      else .error "fetch failed"
    parseJson := fun _ => none
    urlParts := fun s =>
      if s = "https://docs.example" then
        some { protocol := "https:", host := "docs.example", hostname := "docs.example" }
      else none
    resolveUrl := fun r _ => r
    isUrlString := fun _ => true }

set_option maxRecDepth 100000 in
/-- C5 counterexample: in this run the docs sample is all-2xx but unstable
(three distinct hashes), and the code gives L1 status pass — the claim's
"fail when ... unstable (any fetch differing in HTTP status or content
hash)" does not hold on the code. -/
theorem C5_counterexample :
    (fetchRepeated c5env "https://docs.example/docs" 3 12).1.ok = true ∧
    (fetchRepeated c5env "https://docs.example/docs" 3 12).1.stable = false ∧
    ((evaluatePublic c5env "https://docs.example" none).toOption.map (fun p =>
      (p.1.checks.find? (fun c => c.id = "L1")).map (fun c => c.status))) =
      some (some .pass) := by
  refine ⟨by decide, by decide, by decide⟩

/-- C6 (amended): the C2 policy the code implements.  C2 passes exactly when
BOTH the root and the well-known openapi.json probes returned success JSON,
the root body parses with a 3.x openapi version, and no required endpoint
lacks an example; and the failure summary names the first missing piece in
the order: root missing/invalid, well-known missing, version not 3.x
(which also covers a parse failure, since the version is then empty), list
of endpoints lacking examples. -/
theorem C6_c2_policy (origin : String) (rootOk wkOk : Bool)
    (openApiData : Option Json) :
    ((c2CheckOf origin rootOk wkOk openApiData).status = .pass ↔
      (rootOk = true ∧ wkOk = true ∧
        jsStartsWith (openApiVersionOf openApiData) "3." = true ∧
        missingExamplesOf openApiData = [])) ∧
    (rootOk = false →
      (c2CheckOf origin rootOk wkOk openApiData).summary =
        "OpenAPI root endpoint missing or invalid.") ∧
    (rootOk = true → wkOk = false →
      (c2CheckOf origin rootOk wkOk openApiData).summary =
        "OpenAPI root found but /.well-known/openapi.json is missing.") ∧
    (rootOk = true → wkOk = true →
      jsStartsWith (openApiVersionOf openApiData) "3." = false →
      (c2CheckOf origin rootOk wkOk openApiData).summary =
        "OpenAPI is present but not version 3.x.") ∧
    (rootOk = true → wkOk = true →
      jsStartsWith (openApiVersionOf openApiData) "3." = true →
      missingExamplesOf openApiData ≠ [] →
      (c2CheckOf origin rootOk wkOk openApiData).summary =
        "OpenAPI missing examples for: " ++
          joinWith ", " (missingExamplesOf openApiData) ++ ".") ∧
    (rootOk = true → wkOk = true →
      jsStartsWith (openApiVersionOf openApiData) "3." = true →
      missingExamplesOf openApiData = [] →
      (c2CheckOf origin rootOk wkOk openApiData).summary =
        "OpenAPI is valid and includes required examples.") := by
  have hlen : (missingExamplesOf openApiData).length = 0 ↔
      missingExamplesOf openApiData = [] := List.length_eq_zero
  by_cases hm : missingExamplesOf openApiData = [] <;>
    rcases hv : jsStartsWith (openApiVersionOf openApiData) "3." with _ | _ <;>
    cases rootOk <;> cases wkOk <;>
    simp [c2CheckOf, hv, hm, hlen, List.length_eq_zero]

/-- The parsed OpenAPI description of the C6 counterexample: version 3.1.0
and a response example on every required endpoint. -/
def c6json : Json :=
  .obj
    [ ("openapi", .str "3.1.0"),
      ("paths", .obj (requiredExamplePaths.map (fun p =>
        (p, Json.obj
          [ ("get", .obj
              [ ("responses", .obj
                  [ ("200", .obj
                      [ ("content", .obj
                          [ ("application/json", .obj
                              [ ("example", Json.str "x") ]) ]) ]) ]) ]) ])))) ]

/-- The root openapi.json response of the C6 counterexample. -/
def c6root : FetchResult :=
  { url := "https://oa.example/openapi.json", status := 200, headers := [],
    contentType := some "application/json", bodyText := some "OA",
    sha256 := some "s", redirectChain := [] }

/-- A concrete world for the C6 counterexample: the root openapi.json probe
succeeds with a fully example-rich 3.1.0 description, every other probe
(including the well-known openapi.json) fails. -/
def c6env : EvEnv :=
  { net := fun _ url _ _ =>
      if url = "https://oa.example/openapi.json" then .ok c6root
      else .error "fetch failed"
    parseJson := fun s => if s = "OA" then some c6json else none
    urlParts := fun s =>
      if s = "https://oa.example" then
        some { protocol := "https:", host := "oa.example", hostname := "oa.example" }
      else none
    resolveUrl := fun r _ => r
    isUrlString := fun _ => true }

set_option maxRecDepth 100000 in
/-- C6 counterexample: the fetched API description is parsable, declares a
3.x version and every required endpoint carries a response example — the
claim's pass condition — yet C2 fails, because the code additionally
requires the well-known openapi.json mirror (and its summary names that
missing mirror, which is outside the claim's list of named pieces). -/
theorem C6_counterexample :
    ((evaluatePublic c6env "https://oa.example" none).toOption.map (fun p =>
      (p.1.checks.find? (fun c => c.id = "C2")).map (fun c => (c.status, c.summary)))) =
      some (some (.fail, "OpenAPI root found but /.well-known/openapi.json is missing.")) ∧
    (parseJsonBody c6env (some c6root)).isSome = true ∧
    jsStartsWith (openApiVersionOf (parseJsonBody c6env (some c6root))) "3." = true ∧
    missingExamplesOf (parseJsonBody c6env (some c6root)) = [] := by
  refine ⟨by decide, by decide, by decide, by decide⟩

/-- The three air-manifest locations a discovery state records. -/
def airOf (st : DiscoveryState) : Option String × Option String × Option String :=
  (st.airRootUrl, st.airWellKnownUrl, st.airUrl)

theorem airOf_manifestDocs (env : EvEnv) (st : DiscoveryState) :
    airOf (discoverManifestDocs env st) = airOf st := by
  unfold discoverManifestDocs
  rcases parseJsonBody env st.airRoot with _ | j
  · rcases parseJsonBody env st.airWellKnown with _ | j2
    · rfl
    · dsimp only
      repeat' split
      all_goals rfl
  · dsimp only
    repeat' split
    all_goals rfl

theorem airOf_aiPlugin (env : EvEnv) (st : DiscoveryState) (tick : ℕ) :
    airOf (discoverAiPlugin env st tick).1 = airOf st := by
  unfold discoverAiPlugin
  rcases h : fetchOnce env tick (st.origin ++ "/.well-known/ai-plugin.json") with e | r
  · simp [airOf, h]
  · simp only [h]
    split <;> simp [airOf]

theorem airOf_root (env : EvEnv) (st : DiscoveryState) (tick : ℕ) :
    airOf (discoverRoot env st tick).1 = airOf st := by
  unfold discoverRoot
  rcases h : fetchOnce env tick (st.origin ++ "/") with e | r
  · simp [airOf, h]
  · simp only [h]
    split <;> simp [airOf]

theorem airOf_openApiRoot (env : EvEnv) (st : DiscoveryState) (tick : ℕ) :
    airOf (discoverOpenApiRoot env st tick).1 = airOf st := by
  unfold discoverOpenApiRoot
  rcases h : fetchOnce env tick (st.origin ++ "/openapi.json") with e | r
  · simp [airOf, h]
  · simp only [h]
    split
    · split <;> simp [airOf]
    · simp [airOf]

theorem airOf_openApiWellKnown (env : EvEnv) (st : DiscoveryState) (tick : ℕ) :
    airOf (discoverOpenApiWellKnown env st tick).1 = airOf st := by
  unfold discoverOpenApiWellKnown
  rcases h : fetchOnce env tick (st.origin ++ "/.well-known/openapi.json") with e | r
  · simp [airOf, h]
  · simp only [h]
    split
    · split <;> simp [airOf]
    · simp [airOf]

theorem airOf_openApiLoop (env : EvEnv) :
    ∀ (paths : List String) (st : DiscoveryState) (tick : ℕ),
      airOf (openApiLoop env paths st tick).1 = airOf st := by
  intro paths
  induction paths with
  | nil => intro st tick; rfl
  | cons p rest ih =>
    intro st tick
    unfold openApiLoop
    dsimp only
    by_cases hA : st.origin ++ p = st.origin ++ "/openapi.json" ∨
        st.origin ++ p = st.origin ++ "/.well-known/openapi.json"
    · rw [if_pos hA]
      exact ih st tick
    · rw [if_neg hA]
      by_cases hB : st.openApiUrl ≠ none
      · rw [if_pos hB]
      · rw [if_neg hB]
        rcases h : fetchOnce env tick (st.origin ++ p) with e | r
        · simp only [h]
          rw [ih]
          simp [airOf]
        · simp only [h]
          try dsimp only
          split <;> rw [ih] <;> simp [airOf]

theorem airOf_llms (env : EvEnv) (st : DiscoveryState) (tick : ℕ) :
    airOf (discoverLlms env st tick).1 = airOf st := by
  unfold discoverLlms
  rcases h : fetchOnce env tick (st.origin ++ "/llms.txt") with e | r
  · simp [airOf, h]
  · simp only [h]
    split <;> simp [airOf]

theorem airOf_robots (env : EvEnv) (st : DiscoveryState) (tick : ℕ) :
    airOf (discoverRobots env st tick).1 = airOf st := by
  unfold discoverRobots
  rcases h : fetchOnce env tick (st.origin ++ "/robots.txt") with e | r
  · simp [airOf, h]
  · simp only [h]
    split <;> simp [airOf]

theorem airOf_docsLoop (env : EvEnv) :
    ∀ (paths : List String) (st : DiscoveryState) (tick : ℕ),
      airOf (docsLoop env paths st tick).1 = airOf st := by
  intro paths
  induction paths with
  | nil => intro st tick; rfl
  | cons p rest ih =>
    intro st tick
    unfold docsLoop
    dsimp only
    rcases h : fetchOnce env tick (st.origin ++ p) with e | r
    · simp only [h]
      rw [ih]
      simp [airOf]
    · simp only [h]
      try dsimp only
      split
      · simp [airOf]
      · rw [ih]
        simp [airOf]

/-- Everything after the two air.json probes leaves the recorded air
locations untouched. -/
theorem airOf_tail (env : EvEnv) (st : DiscoveryState) (tick : ℕ) :
    airOf (discoverTail env st tick).1 = airOf st := by
  unfold discoverTail
  dsimp only
  split <;>
    simp [airOf_docsLoop, airOf_robots, airOf_llms, airOf_openApiLoop,
      airOf_openApiWellKnown, airOf_openApiRoot, airOf_root, airOf_aiPlugin,
      airOf_manifestDocs]

theorem primaryEntrypointOf_airRoot (d : DiscoveryState) (r : String)
    (h : d.airRootUrl = some r) : primaryEntrypointOf d = some r := by
  simp [primaryEntrypointOf, h]

/-- C7 (amended): when both the root and the well-known air.json probes
succeed as JSON, discovery records the WELL-KNOWN URL as the accepted
manifest location (airUrl, well-known preferred), but the primary
entrypoint used for the subsequent reachability and stability checks is the
ROOT air.json URL, because the primary-entrypoint selection tries
airRootUrl first. -/
theorem C7_wellknown_recorded_root_primary (env : EvEnv) (origin : String)
    (tick : ℕ) (o d : String) (r1 r2 : FetchResult)
    (hn : normalizeOrigin env origin = some (o, d))
    (h1 : fetchOnce env tick (origin ++ "/air.json") = .ok r1)
    (h1ok : isSuccessJson (some r1) = true)
    (h2 : fetchOnce env (tick + 1) (origin ++ "/.well-known/air.json") = .ok r2)
    (h2ok : isSuccessJson (some r2) = true) :
    ∃ st t, discover env origin tick = .ok (st, t) ∧
      st.airRootUrl = some (origin ++ "/air.json") ∧
      st.airWellKnownUrl = some (origin ++ "/.well-known/air.json") ∧
      st.airUrl = some (origin ++ "/.well-known/air.json") ∧
      primaryEntrypointOf st = some (origin ++ "/air.json") := by
  have hs1 : discoverAirRoot env { origin := origin, domain := d } tick =
      ({ origin := origin, domain := d,
         airRoot := some r1,
         airRootUrl := some (origin ++ "/air.json"),
         airUrl := some (origin ++ "/air.json"),
         entrypoints := [origin ++ "/air.json"],
         evidence := [evidenceOf r1 "GET" none] }, tick + 1) := by
    simp [discoverAirRoot, h1, h1ok, recordEvidence]
  have hs2 : discoverAirWellKnown env (discoverAirRoot env
      { origin := origin, domain := d } tick).1
      (discoverAirRoot env { origin := origin, domain := d } tick).2 =
      ({ origin := origin, domain := d,
         airRoot := some r1,
         airRootUrl := some (origin ++ "/air.json"),
         airWellKnown := some r2,
         airWellKnownUrl := some (origin ++ "/.well-known/air.json"),
         airUrl := some (origin ++ "/.well-known/air.json"),
         entrypoints := [origin ++ "/air.json", origin ++ "/.well-known/air.json"],
         evidence := [evidenceOf r1 "GET" none, evidenceOf r2 "GET" none] },
        tick + 2) := by
    rw [hs1]
    simp [discoverAirWellKnown, h2, h2ok, recordEvidence]
  have htail := airOf_tail env (discoverAirWellKnown env (discoverAirRoot env
      { origin := origin, domain := d } tick).1
      (discoverAirRoot env { origin := origin, domain := d } tick).2).1
      (discoverAirWellKnown env (discoverAirRoot env
      { origin := origin, domain := d } tick).1
      (discoverAirRoot env { origin := origin, domain := d } tick).2).2
  rw [hs2] at htail
  simp only [airOf, Prod.mk.injEq] at htail
  have hdisc : discover env origin tick = .ok
      (discoverTail env
        ({ origin := origin, domain := d,
           airRoot := some r1,
           airRootUrl := some (origin ++ "/air.json"),
           airWellKnown := some r2,
           airWellKnownUrl := some (origin ++ "/.well-known/air.json"),
           airUrl := some (origin ++ "/.well-known/air.json"),
           entrypoints := [origin ++ "/air.json", origin ++ "/.well-known/air.json"],
           evidence := [evidenceOf r1 "GET" none, evidenceOf r2 "GET" none] } :
          DiscoveryState) (tick + 2)) := by
    unfold discover
    rw [hn]
    dsimp only
    rw [hs2]
  exact ⟨_, _, hdisc, htail.1, htail.2.1, htail.2.2,
    primaryEntrypointOf_airRoot _ _ htail.1⟩

/-- A concrete world for the C7 counterexample: both the root and the
well-known air.json probes succeed as JSON. -/
def c7env : EvEnv :=
  { net := fun _ url _ _ =>
      if url = "https://both.example/air.json" ∨
          url = "https://both.example/.well-known/air.json" then
        .ok { url := url, status := 200, headers := [],
              contentType := some "application/json", bodyText := some "\x7b\x7d",
              sha256 := some "s", redirectChain := [] }
      else .error "fetch failed"
    parseJson := fun _ => none
    urlParts := fun s =>
      if s = "https://both.example" then
        some { protocol := "https:", host := "both.example", hostname := "both.example" }
      else none
    resolveUrl := fun r _ => r
    isUrlString := fun _ => true }

set_option maxRecDepth 100000 in
/-- C7 counterexample: with both probes succeeding, the accepted manifest
location (airUrl) is the well-known URL, but the primary entrypoint the
evaluation uses for the reachability and stability checks is the ROOT
air.json URL, not the well-known one — refuting the claim as stated. -/
theorem C7_counterexample :
    ((discover c7env "https://both.example" 0).toOption.map (fun p =>
      (p.1.airUrl, p.1.airWellKnownUrl, primaryEntrypointOf p.1))) =
      some (some "https://both.example/.well-known/air.json",
            some "https://both.example/.well-known/air.json",
            some "https://both.example/air.json") := by
  decide

set_option maxRecDepth 100000 in
/-- Witness: the amended C7 statement instantiated in the concrete world
where both air.json probes succeed. -/
theorem C7_wellknown_recorded_root_primary_witness :
    ∃ st t, discover c7env "https://both.example" 0 = .ok (st, t) ∧
      st.airRootUrl = some ("https://both.example" ++ "/air.json") ∧
      st.airWellKnownUrl = some ("https://both.example" ++ "/.well-known/air.json") ∧
      st.airUrl = some ("https://both.example" ++ "/.well-known/air.json") ∧
      primaryEntrypointOf st = some ("https://both.example" ++ "/air.json") :=
  C7_wellknown_recorded_root_primary c7env "https://both.example" 0
    "https://both.example" "both.example"
    { url := "https://both.example/air.json", status := 200, headers := [],
      contentType := some "application/json", bodyText := some "\x7b\x7d",
      sha256 := some "s", redirectChain := [] }
    { url := "https://both.example/.well-known/air.json", status := 200, headers := [],
      contentType := some "application/json", bodyText := some "\x7b\x7d",
      sha256 := some "s", redirectChain := [] }
    (by decide) (by rfl) (by decide) (by rfl) (by decide)

theorem repeatEvidence_length :
    ∀ (results : List FetchResult) (errors : List (Option String)),
      (repeatEvidence results errors).length = results.length := by
  intro results
  induction results with
  | nil => intro errors; cases errors <;> rfl
  | cons r rs ih =>
    intro errors
    cases errors with
    | nil => simp [repeatEvidence, ih]
    | cons e es => simp [repeatEvidence, ih]

theorem repeatEvidence_get :
    ∀ (results : List FetchResult) (errors : List (Option String)) (i : ℕ)
      (r : FetchResult) (e : Option String),
      results.get? i = some r → errors.get? i = some e →
      (repeatEvidence results errors).get? i = some (evidenceOf r "GET" e) := by
  intro results
  induction results with
  | nil => intro errors i r e hr _; simp at hr
  | cons x xs ih =>
    intro errors i r e hr he
    cases errors with
    | nil => cases i <;> simp at he
    | cons y ys =>
      cases i with
      | zero =>
        simp only [List.get?_cons_zero, Option.some.injEq] at hr he
        simp [repeatEvidence, hr, he]
      | succ j =>
        simp only [List.get?_cons_succ] at hr he
        simpa [repeatEvidence] using ih ys j r e hr he

/-- C8 (amended): the evidence guarantee the code actually provides is for
the repeat-fetch samples only: each of the n repeat attempts at a sampled
URL — success or failure — contributes exactly one EvidenceRecord to the
run's evidence list, a failed attempt contributing the record of the
synthetic status-0 result with the thrown error string attached.  (Failed
DISCOVERY probes, in contrast, are recorded as notes and leave no
EvidenceRecord, and the C2/C3/T1/T2 check evidence URL lists are emitted
unconditionally, so a check evidence URL need not have a matching record.) -/
theorem C8_repeat_attempts_recorded (env : EvEnv) (url : String) (times tick : ℕ) :
    (repeatEvidence (fetchRepeated env url times tick).1.results
      (fetchRepeated env url times tick).1.errors).length = times ∧
    (∀ i, i < times →
      (match fetchOnce env (tick + i) url with
       | .ok r =>
         (repeatEvidence (fetchRepeated env url times tick).1.results
           (fetchRepeated env url times tick).1.errors).get? i =
           some (evidenceOf r "GET" none)
       | .error e =>
         (repeatEvidence (fetchRepeated env url times tick).1.results
           (fetchRepeated env url times tick).1.errors).get? i =
           some (evidenceOf (syntheticResult url) "GET" (some e)))) := by
  have spec := fetchRepeatedAux_spec env url times tick
  have hres : (fetchRepeated env url times tick).1.results =
      (fetchRepeatedAux env url times tick).1 := rfl
  have herr : (fetchRepeated env url times tick).1.errors =
      (fetchRepeatedAux env url times tick).2.1 := rfl
  constructor
  · rw [hres, herr, repeatEvidence_length]
    exact spec.1
  · intro i hi
    have hcorr := spec.2.2.2 i hi
    rcases hfo : fetchOnce env (tick + i) url with e | r <;>
      rw [hfo] at hcorr <;> simp only [hfo] <;> rw [hres, herr]
    · exact repeatEvidence_get _ _ i _ _ hcorr.1 hcorr.2
    · exact repeatEvidence_get _ _ i _ _ hcorr.1 hcorr.2

/-- A concrete world for the C8 counterexample: the origin is a valid URL
but every network request fails. -/
def c8env : EvEnv :=
  { net := fun _ _ _ _ => .error "network down"
    parseJson := fun _ => none
    urlParts := fun s =>
      if s = "https://down.example" then
        some { protocol := "https:", host := "down.example", hostname := "down.example" }
      else none
    resolveUrl := fun r _ => r
    isUrlString := fun _ => true }

set_option maxRecDepth 100000 in
/-- C8 counterexample: when every discovery probe fails, the run still
completes — with an EMPTY EvidenceRecord list, because failed probes are
recorded as notes rather than evidence — while the C2 check's evidence list
names two URLs; those URLs therefore have no corresponding EvidenceRecord,
refuting both parts of the claim. -/
theorem C8_counterexample :
    ((evaluatePublic c8env "https://down.example" none).toOption.map (fun p =>
      (p.2, (p.1.checks.find? (fun c => c.id = "C2")).map (fun c => c.evidence)))) =
      some ([], some ["https://down.example/openapi.json",
                      "https://down.example/.well-known/openapi.json"]) := by
  decide

end Agentability
